import Mathlib

/-!
Verification of the gimp-python-wrappers repository: a shallow embedding of
the PDB stub generator (`generate-pdb-stubs/stubgen.py`), the PDB call
wrapper (`pdb-wrapper/pypdb.py`) and the procedure-registration helper
(`wrappers/procedure.py`), together with theorems settling the stated
claims about them.

Python strings are embedded as `List Char` (`Str`); Python lists as Lean
lists; functions that can raise exceptions return `Except`/`Option`.
-/

namespace PyStr

/-- Characters of a Python string. -/
abbrev Str := List Char

/-- Python string comparison (`<`) by code point, lexicographic. -/
def strLt : Str → Str → Bool
  | [], [] => false
  | [], _ :: _ => true
  | _ :: _, [] => false
  | a :: as, b :: bs =>
    if a.val < b.val then true else if b.val < a.val then false else strLt as bs

def strLe (a b : Str) : Bool := !(strLt b a)

/-- `sorted` on strings (stable; elements that compare equal keep their
relative order because each element is inserted in front of later, equal
elements). -/
def pySortedInsert (x : Str) : List Str → List Str
  | [] => [x]
  | y :: ys => if strLe x y then x :: y :: ys else y :: pySortedInsert x ys

def pySorted : List Str → List Str
  | [] => []
  | x :: xs => pySortedInsert x (pySorted xs)

/-- The whitespace characters of Python's `string.whitespace` /
`textwrap._whitespace` (`\t\n\x0b\x0c\r` and space), which is also what
`\s` matches on the ASCII range. -/
def isPyWsp (c : Char) : Bool :=
  c = ' ' || c = '\t' || c = '\n' || c = '\x0b' || c = '\x0c' || c = '\r'

/-- Python `str.strip()`: remove leading and trailing whitespace. -/
def pyStrip (s : Str) : Str :=
  ((s.dropWhile isPyWsp).reverse.dropWhile isPyWsp).reverse

/-- Python `str.rstrip('/')`. -/
def rstripSlash (s : Str) : Str :=
  (s.reverse.dropWhile (fun c => c = '/')).reverse

/-- `s[0].upper() + s[1:]` (on the ASCII range). -/
def upperFirst : Str → Str
  | [] => []
  | c :: rest => c.toUpper :: rest

/-- Python `str.endswith` for a one-character suffix. -/
def endsWithChar (s : Str) (c : Char) : Bool := s.getLast? = some c

/-- Python `', '.join(...)`. -/
def joinCommaSpace : List Str → Str
  | [] => []
  | [s] => s
  | s :: rest => s ++ ", ".data ++ joinCommaSpace rest

/-- Python `'\n'.join(...)`. -/
def joinNL : List Str → Str
  | [] => []
  | [s] => s
  | s :: rest => s ++ '\n' :: joinNL rest

/-- Python `str(int)`. -/
def intToStr (n : Int) : Str := (toString n).data

/-- Python `str.replace('_', '-')`: single-character replacement. -/
def underscoreToHyphen (s : Str) : Str :=
  s.map fun c => if c = '_' then '-' else c

/-- Python `str.replace('-', '_')`: single-character replacement. -/
def hyphenToUnderscore (s : Str) : Str :=
  s.map fun c => if c = '-' then '_' else c

/-- Split a string at newline characters (`str.split('\n')` semantics:
always at least one part, empty parts preserved). -/
def splitNL : Str → List Str
  | [] => [[]]
  | c :: rest =>
    if c = '\n' then [] :: splitNL rest
    else
      match splitNL rest with
      | l :: ls => (c :: l) :: ls
      | [] => [[c]]

theorem splitNL_ne_nil (s : Str) : splitNL s ≠ [] := by
  induction s with
  | nil => simp [splitNL]
  | cons c rest ih =>
    simp only [splitNL]
    split
    · simp
    · cases h : splitNL rest with
      | nil => exact absurd h ih
      | cons l ls => simp

theorem splitNL_append_nl (a b : Str) :
    splitNL (a ++ '\n' :: b) = splitNL a ++ splitNL b := by
  induction a with
  | nil => simp [splitNL]
  | cons c rest ih =>
    by_cases hc : c = '\n'
    · subst hc
      show splitNL ('\n' :: (rest ++ '\n' :: b)) = splitNL ('\n' :: rest) ++ splitNL b
      simp only [splitNL, if_pos rfl]
      rw [ih]
      rfl
    · show splitNL (c :: (rest ++ '\n' :: b)) = splitNL (c :: rest) ++ splitNL b
      simp only [splitNL, if_neg hc]
      rw [ih]
      cases h : splitNL rest with
      | nil => exact absurd h (splitNL_ne_nil rest)
      | cons l ls => simp [h]

theorem splitNL_nlfree (s : Str) (h : ∀ c ∈ s, c ≠ '\n') : splitNL s = [s] := by
  induction s with
  | nil => simp [splitNL]
  | cons c rest ih =>
    have hc : c ≠ '\n' := h c (by simp)
    simp only [splitNL, if_neg hc]
    rw [ih (fun x hx => h x (by simp [hx]))]

theorem splitNL_nlfree_append (a b : Str) (h : ∀ c ∈ a, c ≠ '\n') :
    splitNL (a ++ b) =
      match splitNL b with
      | l :: ls => (a ++ l) :: ls
      | [] => [a] := by
  induction a with
  | nil =>
    cases hb : splitNL b with
    | nil => exact absurd hb (splitNL_ne_nil b)
    | cons l ls => simp [hb]
  | cons c rest ih =>
    have hc : c ≠ '\n' := h c (by simp)
    show (splitNL (c :: (rest ++ b)) = _)
    simp only [splitNL, if_neg hc]
    rw [ih (fun x hx => h x (by simp [hx]))]
    cases hb : splitNL b with
    | nil => exact absurd hb (splitNL_ne_nil b)
    | cons l ls => simp

/-- Lines of `'\n'.join(ls)` are exactly `ls` when every element is
newline-free and the list is non-empty. -/
theorem splitNL_joinNL (ls : List Str) (hne : ls ≠ [])
    (h : ∀ l ∈ ls, ∀ c ∈ l, c ≠ '\n') : splitNL (joinNL ls) = ls := by
  induction ls with
  | nil => exact absurd rfl hne
  | cons l rest ih =>
    cases rest with
    | nil => exact splitNL_nlfree l (h l (by simp))
    | cons m ms =>
      have : joinNL (l :: m :: ms) = l ++ '\n' :: joinNL (m :: ms) := rfl
      rw [this, splitNL_append_nl, ih (by simp)
        (fun x hx => h x (by simp at hx ⊢; tauto)),
        splitNL_nlfree l (h l (by simp))]
      rfl

end PyStr

namespace PyTextWrap

open PyStr

/-- `str.expandtabs()` with the default tab size 8: a tab advances the
column to the next multiple of 8; newline and carriage return reset it. -/
def expandTabsAux : Nat → Str → Str
  | _, [] => []
  | col, c :: rest =>
    if c = '\t' then
      List.replicate (8 - col % 8) ' ' ++ expandTabsAux (col + (8 - col % 8)) rest
    else if c = '\n' || c = '\r' then c :: expandTabsAux 0 rest
    else c :: expandTabsAux (col + 1) rest

/-- `TextWrapper._munge_whitespace` with `expand_tabs=True` and
`replace_whitespace=True`: expand tabs, then turn every whitespace
character into a space. -/
def mungeWhitespace (text : Str) : Str :=
  (expandTabsAux 0 text).map fun c => if isPyWsp c then ' ' else c

/-- Longest run of characters satisfying `p` at the head, and the rest. -/
def takeRun (p : Char → Bool) : Str → Str × Str
  | [] => ([], [])
  | c :: rest =>
    if p c then
      let r := takeRun p rest
      (c :: r.1, r.2)
    else ([], c :: rest)

theorem takeRun_snd_length_le (p : Char → Bool) (s : Str) :
    (takeRun p s).2.length ≤ s.length := by
  induction s with
  | nil => simp [takeRun]
  | cons c rest ih =>
    simp only [takeRun]
    split
    · exact Nat.le_trans ih (Nat.le_succ _)
    · simp

/-- `TextWrapper._split` with `break_on_hyphens=False`: split into
alternating maximal runs of whitespace and non-whitespace characters
(the simple word-separator regex `(\s+)`, empty pieces discarded).
Fuelled so that it reduces in the kernel; every step consumes at least one
character, so `s.length` fuel always suffices. -/
def splitChunksAux : Nat → Str → List Str
  | 0, _ => []
  | _, [] => []
  | fuel + 1, c :: rest =>
    (c :: (takeRun (fun x => isPyWsp x == isPyWsp c) rest).1) ::
      splitChunksAux fuel (takeRun (fun x => isPyWsp x == isPyWsp c) rest).2

def splitChunks (s : Str) : List Str := splitChunksAux s.length s

def sumLens (l : List Str) : Nat := (l.map List.length).sum

/-- The greedy inner loop of `TextWrapper._wrap_chunks`: take chunks while
the accumulated length stays within `w`. Returns the taken chunks and the
remaining ones. -/
def greedyTake (w : Nat) : Nat → List Str → List Str × List Str
  | _, [] => ([], [])
  | curLen, c :: rest =>
    if curLen + c.length ≤ w then
      let r := greedyTake w (curLen + c.length) rest
      (c :: r.1, r.2)
    else ([], c :: rest)

/-- `TextWrapper._handle_long_word` with `break_long_words=True` and
`break_on_hyphens=False`: chop the head chunk so the line is filled to
exactly `w` (at least one character is taken when `w < 1`). -/
def handleLongWord (w curLen : Nat) (curLine : List Str) (chunks : List Str) :
    List Str × List Str :=
  match chunks with
  | [] => (curLine, [])
  | chunk :: rest =>
    let spaceLeft := if w < 1 then 1 else w - curLen
    (curLine ++ [chunk.take spaceLeft], chunk.drop spaceLeft :: rest)

/-- `drop_whitespace` handling at the start of a line: a leading
whitespace chunk is dropped on every line but the first
(`if drop_whitespace and chunks[-1].strip() == '' and lines`). -/
def dropLeadingWsp (linesNonempty : Bool) : List Str → List Str
  | [] => []
  | ck :: rest => if linesNonempty && ck.all isPyWsp then rest else ck :: rest

/-- `if chunks and len(chunks[-1]) > width: self._handle_long_word(...)`. -/
def breakStep (w : Nat) (taken : List Str × List Str) : List Str × List Str :=
  match taken.2 with
  | ck :: _ =>
    if ck.length > w then handleLongWord w (sumLens taken.1) taken.1 taken.2
    else taken
  | [] => taken

/-- `drop_whitespace` handling at the end of a line: a trailing whitespace
chunk is dropped from the current line. -/
def dropTrailingWsp (curLine : List Str) : List Str :=
  match curLine.getLast? with
  | some ck => if ck.all isPyWsp then curLine.dropLast else curLine
  | none => curLine

/-- One iteration of the outer loop of `TextWrapper._wrap_chunks`
(`drop_whitespace=True`, no `max_lines`). In the Python source the chunk
list is reversed and consumed from its end; here it is consumed from the
front, which is the same order. Python computes `width - len(indent)` as a
possibly negative int; natural subtraction gives 0 there, and the
`width < 1` test in `_handle_long_word` covers both cases identically. -/
def wrapOneLine (width : Nat) (initialIndent subsequentIndent : Str)
    (linesNonempty : Bool) (chunks : List Str) : Option Str × List Str :=
  let indent := if linesNonempty then subsequentIndent else initialIndent
  let w := width - indent.length
  let broken := breakStep w (greedyTake w 0 (dropLeadingWsp linesNonempty chunks))
  let curLine := dropTrailingWsp broken.1
  (if curLine.isEmpty then none else some (indent ++ curLine.flatten), broken.2)

/-- The outer loop of `TextWrapper._wrap_chunks`, fuelled. Every iteration
consumes at least one character or one chunk, so
`sumLens chunks + chunks.length + 1` fuel always suffices. -/
def wrapLoop (width : Nat) (initialIndent subsequentIndent : Str) :
    Nat → List Str → List Str → List Str
  | 0, lines, _ => lines.reverse
  | _ + 1, lines, [] => lines.reverse
  | fuel + 1, lines, ck :: rest =>
    let r := wrapOneLine width initialIndent subsequentIndent (!lines.isEmpty) (ck :: rest)
    match r.1 with
    | some line => wrapLoop width initialIndent subsequentIndent fuel (line :: lines) r.2
    | none => wrapLoop width initialIndent subsequentIndent fuel lines r.2

/-- `textwrap.wrap(text, width=.., initial_indent=.., subsequent_indent=..,
break_on_hyphens=False)` with all other options at their defaults. -/
def wrapText (width : Nat) (initialIndent subsequentIndent : Str) (text : Str) :
    List Str :=
  let chunks := splitChunks (mungeWhitespace text)
  wrapLoop width initialIndent subsequentIndent (sumLens chunks + chunks.length + 1) [] chunks

/-- `textwrap.fill(...)` = `'\n'.join(textwrap.wrap(...))`. -/
def fill (width : Nat) (initialIndent subsequentIndent : Str) (text : Str) : Str :=
  joinNL (wrapText width initialIndent subsequentIndent text)

theorem sumLens_append (a b : List Str) : sumLens (a ++ b) = sumLens a + sumLens b := by
  simp [sumLens]

theorem sumLens_dropLast_le (l : List Str) : sumLens l.dropLast ≤ sumLens l := by
  induction l with
  | nil => simp
  | cons x xs ih =>
    cases xs with
    | nil => simp [sumLens]
    | cons y ys =>
      simp only [List.dropLast_cons₂, sumLens, List.map_cons, List.sum_cons] at *
      omega

theorem length_flatten_eq_sumLens (l : List Str) : l.flatten.length = sumLens l := by
  induction l with
  | nil => simp [sumLens]
  | cons x xs ih => simp only [sumLens, List.flatten_cons, List.length_append,
      List.map_cons, List.sum_cons] at *; omega

theorem greedyTake_sum_le (w : Nat) (chunks : List Str) :
    ∀ curLen, curLen ≤ w → curLen + sumLens (greedyTake w curLen chunks).1 ≤ w := by
  induction chunks with
  | nil => intro curLen h; simpa [greedyTake, sumLens]
  | cons c rest ih =>
    intro curLen h
    simp only [greedyTake]
    split
    · next hfit =>
      have := ih (curLen + c.length) hfit
      simp only [sumLens, List.map_cons, List.sum_cons] at *
      omega
    · simpa [sumLens]

theorem greedyTake_append (w : Nat) (chunks : List Str) :
    ∀ curLen, (greedyTake w curLen chunks).1 ++ (greedyTake w curLen chunks).2 = chunks := by
  induction chunks with
  | nil => intro curLen; simp [greedyTake]
  | cons c rest ih =>
    intro curLen
    simp only [greedyTake]
    split
    · simpa using ih (curLen + c.length)
    · simp

theorem sumLens_singleton (s : Str) : sumLens [s] = s.length := by
  simp [sumLens]

theorem handleLongWord_sum_le (w : Nat) (curLine chunks : List Str)
    (hw : 1 ≤ w) (hcl : sumLens curLine ≤ w) :
    sumLens (handleLongWord w (sumLens curLine) curLine chunks).1 ≤ w := by
  cases chunks with
  | nil => simpa [handleLongWord] using hcl
  | cons ck rest =>
    simp only [handleLongWord, if_neg (by omega : ¬ w < 1), sumLens_append,
      sumLens_singleton]
    have htake : (ck.take (w - sumLens curLine)).length ≤ w - sumLens curLine := by
      simp [List.length_take]
    omega

theorem breakStep_sum_le (w : Nat) (taken : List Str × List Str)
    (hw : 1 ≤ w) (h : sumLens taken.1 ≤ w) : sumLens (breakStep w taken).1 ≤ w := by
  rcases taken with ⟨tk, rest⟩
  cases rest with
  | nil => simpa [breakStep]
  | cons ck r =>
    simp only [breakStep]
    split
    · exact handleLongWord_sum_le w tk (ck :: r) hw h
    · exact h

theorem dropTrailingWsp_sum_le (curLine : List Str) :
    sumLens (dropTrailingWsp curLine) ≤ sumLens curLine := by
  simp only [dropTrailingWsp]
  cases curLine.getLast? with
  | none => exact Nat.le_refl _
  | some ck =>
    simp only []
    split
    · exact sumLens_dropLast_le _
    · exact Nat.le_refl _

theorem wrapOneLine_line_length_aux (width : Nat) (indent : Str)
    (hind : indent.length < width) (chunks0 : List Str) (l : Str)
    (h : (if (dropTrailingWsp (breakStep (width - indent.length)
            (greedyTake (width - indent.length) 0 chunks0)).1).isEmpty
          then none
          else some (indent ++ (dropTrailingWsp (breakStep (width - indent.length)
            (greedyTake (width - indent.length) 0 chunks0)).1).flatten)) = some l) :
    l.length ≤ width := by
  split at h
  · exact absurd h (by simp)
  · have hl : l = indent ++ (dropTrailingWsp (breakStep (width - indent.length)
        (greedyTake (width - indent.length) 0 chunks0)).1).flatten :=
      (Option.some.inj h).symm
    have hw1 : 1 ≤ width - indent.length := by omega
    have hsum1 : sumLens (greedyTake (width - indent.length) 0 chunks0).1 ≤
        width - indent.length := by
      have := greedyTake_sum_le (width - indent.length) chunks0 0 (by omega)
      omega
    have hsum2 : sumLens (breakStep (width - indent.length)
        (greedyTake (width - indent.length) 0 chunks0)).1 ≤ width - indent.length :=
      breakStep_sum_le _ _ hw1 hsum1
    have hsum3 : sumLens (dropTrailingWsp (breakStep (width - indent.length)
        (greedyTake (width - indent.length) 0 chunks0)).1) ≤ width - indent.length :=
      Nat.le_trans (dropTrailingWsp_sum_le _) hsum2
    rw [hl, List.length_append, length_flatten_eq_sumLens]
    omega

/-- A line emitted by `wrapOneLine` fits within `width`, provided both
indents are shorter than `width`. -/
theorem wrapOneLine_line_length (width : Nat) (ii si : Str)
    (hii : ii.length < width) (hsi : si.length < width)
    (ln : Bool) (chunks : List Str) (l : Str)
    (h : (wrapOneLine width ii si ln chunks).1 = some l) : l.length ≤ width := by
  have hind : (if ln then si else ii).length < width := by
    cases ln <;> simpa
  exact wrapOneLine_line_length_aux width (if ln then si else ii) hind
    (dropLeadingWsp ln chunks) l h

/-- All lines produced by the wrap loop fit within `width`. -/
theorem wrapLoop_line_length (width : Nat) (ii si : Str)
    (hii : ii.length < width) (hsi : si.length < width) :
    ∀ (fuel : Nat) (lines chunks : List Str),
      (∀ l ∈ lines, l.length ≤ width) →
      ∀ l ∈ wrapLoop width ii si fuel lines chunks, l.length ≤ width := by
  intro fuel
  induction fuel with
  | zero => intro lines chunks hacc l hl; simp only [wrapLoop] at hl
            exact hacc l (List.mem_reverse.mp hl)
  | succ n ih =>
    intro lines chunks hacc l hl
    cases chunks with
    | nil => simp only [wrapLoop] at hl; exact hacc l (List.mem_reverse.mp hl)
    | cons ck rest =>
      simp only [wrapLoop] at hl
      cases hres : (wrapOneLine width ii si (!lines.isEmpty) (ck :: rest)).1 with
      | some line =>
        rw [hres] at hl
        refine ih _ _ ?_ l hl
        intro x hx
        rcases List.mem_cons.mp hx with h | h
        · subst h
          exact wrapOneLine_line_length width ii si hii hsi _ _ _ hres
        · exact hacc x h
      | none =>
        rw [hres] at hl
        exact ih _ _ hacc l hl

/-- Every line of `textwrap.wrap` fits within `width` when both indents
are shorter than `width`. -/
theorem wrapText_line_length (width : Nat) (ii si : Str) (text : Str)
    (hii : ii.length < width) (hsi : si.length < width) :
    ∀ l ∈ wrapText width ii si text, l.length ≤ width := by
  intro l hl
  exact wrapLoop_line_length width ii si hii hsi _ _ _ (by simp) l hl

/-- No chunk contains a newline. -/
def nlFreeChunks (l : List Str) : Prop := ∀ ck ∈ l, ∀ c ∈ ck, c ≠ '\n'

theorem munge_no_nl (t : Str) : ∀ c ∈ mungeWhitespace t, c ≠ '\n' := by
  intro c hc
  simp only [mungeWhitespace, List.mem_map] at hc
  obtain ⟨a, _, ha⟩ := hc
  by_cases hw : isPyWsp a
  · rw [if_pos hw] at ha
    rw [← ha]; decide
  · rw [if_neg hw] at ha
    intro hcn
    rw [← ha] at hcn
    subst hcn
    exact hw (by decide)

theorem takeRun_append (p : Char → Bool) (s : Str) :
    (takeRun p s).1 ++ (takeRun p s).2 = s := by
  induction s with
  | nil => simp [takeRun]
  | cons c rest ih =>
    simp only [takeRun]
    split
    · simpa using ih
    · simp

theorem splitChunksAux_chars (fuel : Nat) :
    ∀ (s : Str), ∀ ck ∈ splitChunksAux fuel s, ∀ c ∈ ck, c ∈ s := by
  induction fuel with
  | zero => intro s ck hck; simp [splitChunksAux] at hck
  | succ n ih =>
    intro s ck hck x hx
    cases s with
    | nil => simp [splitChunksAux] at hck
    | cons c rest =>
      simp only [splitChunksAux] at hck
      rcases List.mem_cons.mp hck with h | h
      · subst h
        rcases List.mem_cons.mp hx with h | h
        · simp [h]
        · have hm : x ∈ (takeRun (fun y => isPyWsp y == isPyWsp c) rest).1 ++
              (takeRun (fun y => isPyWsp y == isPyWsp c) rest).2 :=
            List.mem_append_left _ h
          rw [takeRun_append] at hm
          simp [hm]
      · have hmem := ih _ ck h x hx
        have hm : x ∈ (takeRun (fun y => isPyWsp y == isPyWsp c) rest).1 ++
            (takeRun (fun y => isPyWsp y == isPyWsp c) rest).2 :=
          List.mem_append_right _ hmem
        rw [takeRun_append] at hm
        simp [hm]

theorem splitChunks_chars (s : Str) : ∀ ck ∈ splitChunks s, ∀ c ∈ ck, c ∈ s :=
  splitChunksAux_chars s.length s

theorem nlFree_dropLeadingWsp (b : Bool) (chunks : List Str)
    (h : nlFreeChunks chunks) : nlFreeChunks (dropLeadingWsp b chunks) := by
  cases chunks with
  | nil => simpa [dropLeadingWsp]
  | cons ck rest =>
    simp only [dropLeadingWsp]
    split
    · exact fun x hx => h x (List.mem_cons_of_mem _ hx)
    · exact h

theorem nlFree_greedyTake (w : Nat) (chunks : List Str) (curLen : Nat)
    (h : nlFreeChunks chunks) :
    nlFreeChunks (greedyTake w curLen chunks).1 ∧
      nlFreeChunks (greedyTake w curLen chunks).2 := by
  constructor <;> intro ck hck <;>
    [have : ck ∈ (greedyTake w curLen chunks).1 ++ (greedyTake w curLen chunks).2 :=
      List.mem_append_left _ hck;
     have : ck ∈ (greedyTake w curLen chunks).1 ++ (greedyTake w curLen chunks).2 :=
      List.mem_append_right _ hck] <;>
    · rw [greedyTake_append] at this
      exact h ck this

theorem nlFree_handleLongWord (w curLen : Nat) (curLine chunks : List Str)
    (hcl : nlFreeChunks curLine) (hch : nlFreeChunks chunks) :
    nlFreeChunks (handleLongWord w curLen curLine chunks).1 ∧
      nlFreeChunks (handleLongWord w curLen curLine chunks).2 := by
  cases chunks with
  | nil => exact ⟨by simpa [handleLongWord], by simp [handleLongWord, nlFreeChunks]⟩
  | cons ck rest =>
    simp only [handleLongWord]
    constructor
    · intro x hx
      rcases List.mem_append.mp hx with h | h
      · exact hcl x h
      · intro c hc
        have hx2 := List.mem_singleton.mp h
        subst hx2
        exact hch ck (by simp) c (List.take_subset _ _ hc)
    · intro x hx
      rcases List.mem_cons.mp hx with h | h
      · subst h
        intro c hc
        exact hch ck (by simp) c (List.drop_subset _ _ hc)
      · exact hch x (List.mem_cons_of_mem _ h)

theorem nlFree_breakStep (w : Nat) (taken : List Str × List Str)
    (h1 : nlFreeChunks taken.1) (h2 : nlFreeChunks taken.2) :
    nlFreeChunks (breakStep w taken).1 ∧ nlFreeChunks (breakStep w taken).2 := by
  rcases taken with ⟨tk, rest⟩
  cases rest with
  | nil => exact ⟨h1, h2⟩
  | cons ck r =>
    simp only [breakStep]
    split
    · exact nlFree_handleLongWord _ _ _ _ h1 h2
    · exact ⟨h1, h2⟩

theorem nlFree_dropTrailingWsp (curLine : List Str) (h : nlFreeChunks curLine) :
    nlFreeChunks (dropTrailingWsp curLine) := by
  simp only [dropTrailingWsp]
  cases curLine.getLast? with
  | none => exact h
  | some ck =>
    simp only []
    split
    · exact fun x hx => h x ((List.dropLast_sublist _).subset hx)
    · exact h

theorem wrapOneLine_line_nlfree_aux (width : Nat) (indent : Str)
    (hindn : ∀ c ∈ indent, c ≠ '\n') (chunks0 : List Str)
    (hck : nlFreeChunks chunks0) (l : Str)
    (h : (if (dropTrailingWsp (breakStep (width - indent.length)
            (greedyTake (width - indent.length) 0 chunks0)).1).isEmpty
          then none
          else some (indent ++ (dropTrailingWsp (breakStep (width - indent.length)
            (greedyTake (width - indent.length) 0 chunks0)).1).flatten)) = some l) :
    ∀ c ∈ l, c ≠ '\n' := by
  split at h
  · exact absurd h (by simp)
  · have hgreedy := nlFree_greedyTake (width - indent.length) chunks0 0 hck
    have hbreak := nlFree_breakStep (width - indent.length) _ hgreedy.1 hgreedy.2
    have htrail := nlFree_dropTrailingWsp _ hbreak.1
    have hleq := (Option.some.inj h).symm
    subst hleq
    intro c hc
    rcases List.mem_append.mp hc with h1 | h1
    · exact hindn c h1
    · obtain ⟨ck, hck1, hck2⟩ := List.mem_flatten.mp h1
      exact htrail ck hck1 c hck2

theorem wrapOneLine_nlfree (width : Nat) (ii si : Str)
    (hiin : ∀ c ∈ ii, c ≠ '\n') (hsin : ∀ c ∈ si, c ≠ '\n')
    (ln : Bool) (chunks : List Str) (hck : nlFreeChunks chunks) :
    (∀ l, (wrapOneLine width ii si ln chunks).1 = some l → ∀ c ∈ l, c ≠ '\n') ∧
      nlFreeChunks (wrapOneLine width ii si ln chunks).2 := by
  have hind : ∀ c ∈ (if ln then si else ii), c ≠ '\n' := by
    cases ln <;> simpa
  have hdrop := nlFree_dropLeadingWsp ln chunks hck
  constructor
  · intro l hl
    exact wrapOneLine_line_nlfree_aux width (if ln then si else ii) hind
      (dropLeadingWsp ln chunks) hdrop l hl
  · have hgreedy := nlFree_greedyTake (width - (if ln then si else ii).length)
      (dropLeadingWsp ln chunks) 0 hdrop
    exact (nlFree_breakStep (width - (if ln then si else ii).length)
      _ hgreedy.1 hgreedy.2).2

theorem wrapLoop_nlfree (width : Nat) (ii si : Str)
    (hiin : ∀ c ∈ ii, c ≠ '\n') (hsin : ∀ c ∈ si, c ≠ '\n') :
    ∀ (fuel : Nat) (lines chunks : List Str),
      nlFreeChunks chunks →
      (∀ l ∈ lines, ∀ c ∈ l, c ≠ '\n') →
      ∀ l ∈ wrapLoop width ii si fuel lines chunks, ∀ c ∈ l, c ≠ '\n' := by
  intro fuel
  induction fuel with
  | zero =>
    intro lines chunks _ hacc l hl
    exact hacc l (List.mem_reverse.mp hl)
  | succ n ih =>
    intro lines chunks hch hacc l hl
    cases chunks with
    | nil =>
      simp only [wrapLoop] at hl
      exact hacc l (List.mem_reverse.mp hl)
    | cons ck rest =>
      simp only [wrapLoop] at hl
      have hone := wrapOneLine_nlfree width ii si hiin hsin (!lines.isEmpty)
        (ck :: rest) hch
      cases hres : (wrapOneLine width ii si (!lines.isEmpty) (ck :: rest)).1 with
      | some line =>
        rw [hres] at hl
        refine ih _ _ hone.2 ?_ l hl
        intro x hx
        rcases List.mem_cons.mp hx with h | h
        · subst h
          exact hone.1 x hres
        · exact hacc x h
      | none =>
        rw [hres] at hl
        exact ih _ _ hone.2 hacc l hl

theorem wrapText_nlfree (width : Nat) (ii si : Str) (text : Str)
    (hiin : ∀ c ∈ ii, c ≠ '\n') (hsin : ∀ c ∈ si, c ≠ '\n') :
    ∀ l ∈ wrapText width ii si text, ∀ c ∈ l, c ≠ '\n' := by
  intro l hl
  refine wrapLoop_nlfree width ii si hiin hsin _ _ _ ?_ (by simp) l hl
  intro ck hck c hc
  have := splitChunks_chars _ ck hck c hc
  exact munge_no_nl text c this

/-- Every line of `textwrap.fill` (split at newlines) fits within `width`
when both indents are shorter than `width` and contain no newline. -/
theorem fill_line_length (width : Nat) (ii si : Str) (text : Str)
    (hii : ii.length < width) (hsi : si.length < width)
    (hiin : ∀ c ∈ ii, c ≠ '\n') (hsin : ∀ c ∈ si, c ≠ '\n') :
    ∀ l ∈ splitNL (fill width ii si text), l.length ≤ width := by
  intro l hl
  cases hw : wrapText width ii si text with
  | nil =>
    rw [fill, hw] at hl
    simp only [joinNL, splitNL, List.mem_singleton] at hl
    subst hl
    simp
  | cons m ms =>
    rw [fill, hw, splitNL_joinNL _ (by simp) ?_] at hl
    · rw [← hw] at hl
      exact wrapText_line_length width ii si text hii hsi l hl
    · intro x hx
      rw [← hw] at hx
      exact wrapText_nlfree width ii si text hiin hsin x hx

/-- `fill` output has a newline-free first line and, more generally, every
split line is newline-free by construction; we only need that the result's
lines are exactly the wrapped lines.  Additionally, the whole `fill` output
contains a newline only between lines, so splitting is faithful. -/
theorem fill_splitNL (width : Nat) (ii si : Str) (text : Str)
    (hiin : ∀ c ∈ ii, c ≠ '\n') (hsin : ∀ c ∈ si, c ≠ '\n')
    (hne : wrapText width ii si text ≠ []) :
    splitNL (fill width ii si text) = wrapText width ii si text := by
  rw [fill]
  exact splitNL_joinNL _ hne (fun x hx => wrapText_nlfree width ii si text hiin hsin x hx)

/-- Every line of a `fill` result (through `splitNL`) fits within `width`:
combined form convenient for the docstring lemmas. -/
theorem fill_all_lines_le (width : Nat) (ii si : Str) (text : Str)
    (hii : ii.length < width) (hsi : si.length < width)
    (hiin : ∀ c ∈ ii, c ≠ '\n') (hsin : ∀ c ∈ si, c ≠ '\n') :
    ∀ l ∈ splitNL (fill width ii si text), l.length ≤ width :=
  fill_line_length width ii si text hii hsi hiin hsin

end PyTextWrap

namespace StubGen

open PyStr PyTextWrap

/-- `_INDENT = '    '` from `stubgen.py`. -/
def INDENT : Str := List.replicate 4 ' '

/-- `_BODY_INDENT = _INDENT * 2` from `stubgen.py`. -/
def BODY_INDENT : Str := List.replicate 8 ' '

/-- `_DOCSTRING_LINE_LENGTH = 80` from `stubgen.py`. -/
def DOCSTRING_LINE_LENGTH : Nat := 80

/-- The string `f'\n{_BODY_INDENT}'`. -/
def nlIndent : Str := '\n' :: BODY_INDENT

/-- The string `f'\n{_BODY_INDENT}' * 2`. -/
def nlIndent2 : Str := nlIndent ++ nlIndent

/-- `_add_proc_blurb_to_docstring` from `stubgen.py`: strip, append a
final period if absent, capitalize the first character, wrap to
80 - 8 - 3 columns with an 8-space subsequent indent, append. -/
def addProcBlurbToDocstring (procBlurb procDocstring : Str) : Str :=
  if procBlurb ≠ [] then
    let b := pyStrip procBlurb
    let b := if endsWithChar b '.' then b else b ++ ['.']
    let b := upperFirst b
    let b := fill (DOCSTRING_LINE_LENGTH - BODY_INDENT.length - 3) [] BODY_INDENT b
    procDocstring ++ b
  else procDocstring

/-- Match a single non-whitespace character (`(\S)`) at the start of the
input, returning it and the rest. -/
def matchNonWsp : Str → Option (Char × Str)
  | d :: rest2 => if ¬ isPyWsp d then some (d, rest2) else none
  | [] => none

/-- Attempt to match `  +(\S)` (two or more literal spaces followed by a
non-whitespace character) at the start of `rest`, returning the matched
non-whitespace character and the remaining input. -/
def matchSpacesNonWsp (rest : Str) : Option (Char × Str) :=
  if ((takeRun (fun c => c = ' ') rest).1).length ≥ 2 then
    matchNonWsp (takeRun (fun c => c = ' ') rest).2
  else none

/-- `re.sub(r'(\S)  +(\S)', r'\1\n\n\2', text)`: scan left to right; at a
non-whitespace character followed by two or more spaces and a
non-whitespace character, replace the spaces by two newlines and resume
scanning after the match. Fuelled so that it reduces in the kernel;
every step consumes at least one character, so `s.length` fuel always
suffices. -/
def reSubDoubleSpaceAux : Nat → Str → Str
  | 0, s => s
  | _ + 1, [] => []
  | fuel + 1, c :: rest =>
    if ¬ isPyWsp c then
      match matchSpacesNonWsp rest with
      | some dr => c :: '\n' :: '\n' :: dr.1 :: reSubDoubleSpaceAux fuel dr.2
      | none => c :: reSubDoubleSpaceAux fuel rest
    else c :: reSubDoubleSpaceAux fuel rest

def reSubDoubleSpace (s : Str) : Str := reSubDoubleSpaceAux s.length s

/-- `re.sub(r'(\S)\n(\S)', r'\1 \2', text)`: scan left to right; a
non-whitespace character, a newline and a non-whitespace character are
replaced by the two characters separated by a space, resuming after the
match. -/
def reSubSingleNL : Str → Str
  | c :: '\n' :: d :: rest =>
    if ¬ isPyWsp c ∧ ¬ isPyWsp d then c :: ' ' :: d :: reSubSingleNL rest
    else c :: reSubSingleNL ('\n' :: d :: rest)
  | c :: rest => c :: reSubSingleNL rest
  | [] => []

/-- Python `str.split('\n\n')`: split at non-overlapping leftmost
occurrences of two consecutive newlines. -/
def splitParas : Str → List Str
  | [] => [[]]
  | [c] => [[c]]
  | c :: d :: rest =>
    if c = '\n' ∧ d = '\n' then [] :: splitParas rest
    else
      match splitParas (d :: rest) with
      | l :: ls => (c :: l) :: ls
      | [] => [[c]]

theorem splitParas_ne_nil (s : Str) : splitParas s ≠ [] := by
  induction s with
  | nil => simp [splitParas]
  | cons c rest ih =>
    cases rest with
    | nil => simp [splitParas]
    | cons d rest2 =>
      rw [splitParas]
      split
      · simp
      · cases h : splitParas (d :: rest2) with
        | nil => exact absurd h ih
        | cons l ls => simp

/-- `(f'\n{_BODY_INDENT}' * 2).join(proc_help_lines)`. -/
def joinParas : List Str → Str
  | [] => []
  | [p] => p
  | p :: rest => p ++ nlIndent2 ++ joinParas rest

/-- The value of the local variable `proc_help` in
`_add_proc_help_to_docstring` after all transformations: strip, add a
final period, capitalize, wrap to 72 columns, restore paragraph breaks
(`(\S)  +(\S)` → `\1\n\n\2`), merge single line breaks
(`(\S)\n(\S)` → `\1 \2`), split into paragraphs, wrap each paragraph to
72 columns with an 8-space subsequent indent, and join the paragraphs
with `f'\n{_BODY_INDENT}' * 2`. -/
def buildHelpBlock (procHelp : Str) : Str :=
  let h := pyStrip procHelp
  let h := if endsWithChar h '.' then h else h ++ ['.']
  let h := upperFirst h
  let h := fill (DOCSTRING_LINE_LENGTH - BODY_INDENT.length) [] [] h
  let h := reSubDoubleSpace h
  let h := reSubSingleNL h
  joinParas ((splitParas h).map
    (fill (DOCSTRING_LINE_LENGTH - BODY_INDENT.length) [] BODY_INDENT))

/-- `_add_proc_help_to_docstring` from `stubgen.py`. -/
def addProcHelpToDocstring (procHelp procDocstring : Str) : Str :=
  if procHelp ≠ [] then
    (if procDocstring ≠ [] then procDocstring ++ nlIndent2 else procDocstring) ++
      buildHelpBlock procHelp
  else procDocstring

theorem BODY_INDENT_nlfree : ∀ c ∈ BODY_INDENT, c ≠ '\n' := by
  intro c hc
  rw [BODY_INDENT, List.mem_replicate] at hc
  rw [hc.2]
  decide

theorem BODY_INDENT_length : BODY_INDENT.length = 8 := by
  simp [BODY_INDENT]

/-- The paragraph join `(f'\n{_BODY_INDENT}' * 2).join`: the first line of
the result is the first line of the first paragraph (bounded by 72), every
other physical line of the result is at most 80 characters wide. -/
theorem joinParas_lines (ps : List Str) (hne : ps ≠ [])
    (h : ∀ p ∈ ps, ∀ l ∈ splitNL p, l.length ≤ 72) :
    ∃ l₀ rest, splitNL (joinParas ps) = l₀ :: rest ∧ l₀.length ≤ 72 ∧
      ∀ l ∈ rest, l.length ≤ 80 := by
  induction ps with
  | nil => exact absurd rfl hne
  | cons p rest ih =>
    cases rest with
    | nil =>
      cases hs : splitNL p with
      | nil => exact absurd hs (splitNL_ne_nil p)
      | cons l0 ls =>
        refine ⟨l0, ls, by simpa [joinParas] using hs, ?_, ?_⟩
        · exact h p (by simp) l0 (by rw [hs]; simp)
        · intro l hl
          exact Nat.le_trans (h p (by simp) l (by rw [hs]; simp [hl])) (by omega)
    | cons q qs =>
      have hrw : joinParas (p :: q :: qs) =
          p ++ '\n' :: (BODY_INDENT ++ '\n' :: (BODY_INDENT ++ joinParas (q :: qs))) := by
        show p ++ nlIndent2 ++ joinParas (q :: qs) = _
        simp [nlIndent2, nlIndent]
      obtain ⟨j0, jrest, hj, hj0, hjrest⟩ :=
        ih (by simp) (fun x hx => h x (by simp at hx ⊢; tauto))
      rw [hrw, splitNL_append_nl, splitNL_append_nl,
        splitNL_nlfree BODY_INDENT BODY_INDENT_nlfree,
        splitNL_nlfree_append BODY_INDENT _ BODY_INDENT_nlfree, hj]
      cases hs : splitNL p with
      | nil => exact absurd hs (splitNL_ne_nil p)
      | cons l0 ls =>
        refine ⟨l0, ls ++ [BODY_INDENT] ++ ((BODY_INDENT ++ j0) :: jrest), by simp, ?_, ?_⟩
        · exact h p (by simp) l0 (by rw [hs]; simp)
        · intro l hl
          rcases List.mem_append.mp hl with h1 | h1
          · rcases List.mem_append.mp h1 with h2 | h2
            · exact Nat.le_trans (h p (by simp) l (by rw [hs]; simp [h2])) (by omega)
            · have hB : l = BODY_INDENT := by simpa using h2
              subst hB; rw [BODY_INDENT_length]; omega
          · rcases List.mem_cons.mp h1 with h2 | h2
            · subst h2; rw [List.length_append, BODY_INDENT_length]; omega
            · exact hjrest l h2

/-- Lines of the wrapped blurb: the first line fits in 80 columns even
after the 8-space body indent and the three docstring quote characters,
and every subsequent line (which carries its own 8-space indent) fits in
80 columns. -/
theorem addProcBlurb_lines (blurb : Str) :
    ∃ l₀ rest, splitNL (addProcBlurbToDocstring blurb []) = l₀ :: rest ∧
      l₀.length ≤ 69 ∧ ∀ l ∈ rest, l.length ≤ 69 := by
  by_cases hb : blurb = []
  · subst hb
    exact ⟨[], [], by simp [addProcBlurbToDocstring, splitNL], by simp, by simp⟩
  · rw [addProcBlurbToDocstring, if_pos hb]
    simp only [List.nil_append]
    have hlines := fill_all_lines_le (DOCSTRING_LINE_LENGTH - BODY_INDENT.length - 3)
      [] BODY_INDENT
      (upperFirst (if endsWithChar (pyStrip blurb) '.' then pyStrip blurb
        else pyStrip blurb ++ ['.']))
      (by rw [BODY_INDENT_length]; decide) (by rw [BODY_INDENT_length]; decide)
      (by simp) BODY_INDENT_nlfree
    cases hs : splitNL (fill (DOCSTRING_LINE_LENGTH - BODY_INDENT.length - 3)
        [] BODY_INDENT
        (upperFirst (if endsWithChar (pyStrip blurb) '.' then pyStrip blurb
          else pyStrip blurb ++ ['.']))) with
    | nil => exact absurd hs (splitNL_ne_nil _)
    | cons l0 ls =>
      refine ⟨l0, ls, rfl, ?_, ?_⟩
      · have := hlines l0 (by rw [hs]; simp)
        simpa [DOCSTRING_LINE_LENGTH, BODY_INDENT_length] using this
      · intro l hl
        have := hlines l (by rw [hs]; simp [hl])
        simpa [DOCSTRING_LINE_LENGTH, BODY_INDENT_length] using this

/-- Lines of the wrapped help block: the first line fits in 80 columns
after the 8-space body indent that precedes it in the docstring, and
every other physical line fits in 80 columns. -/
theorem buildHelpBlock_lines (helpText : Str) :
    ∃ l₀ rest, splitNL (buildHelpBlock helpText) = l₀ :: rest ∧
      l₀.length ≤ 72 ∧ ∀ l ∈ rest, l.length ≤ 80 := by
  rw [buildHelpBlock]
  refine joinParas_lines _ ?_ ?_
  · simp [splitParas_ne_nil]
  · intro p hp l hl
    simp only [List.mem_map] at hp
    obtain ⟨par, _, hpar⟩ := hp
    subst hpar
    have := fill_all_lines_le (DOCSTRING_LINE_LENGTH - BODY_INDENT.length)
      [] BODY_INDENT par
      (by rw [BODY_INDENT_length]; decide) (by rw [BODY_INDENT_length]; decide)
      (by simp) BODY_INDENT_nlfree l hl
    simpa [DOCSTRING_LINE_LENGTH, BODY_INDENT_length] using this

end StubGen

/-- **C7**: For every procedure blurb and help text composed into a stub
docstring, the emitted text is re-wrapped so that each line, including its
body indentation (and, for the first blurb line, the three leading
docstring-quote characters), fits within the 80-character docstring line
limit: the first blurb line occupies at most 80 columns together with the
8-space body indent and the leading `"""`, each subsequent blurb line
(which carries its own 8-space indent) is at most 80 columns, the first
help line occupies at most 80 columns together with the 8-space body
indent that precedes it, and each subsequent help line is at most
80 columns. -/
theorem claim_C7_docstring_lines_fit (blurb helpText : PyStr.Str) :
    (∀ l₀ rest, PyStr.splitNL (StubGen.addProcBlurbToDocstring blurb []) = l₀ :: rest →
      StubGen.BODY_INDENT.length + 3 + l₀.length ≤ StubGen.DOCSTRING_LINE_LENGTH ∧
      ∀ l ∈ rest, l.length ≤ StubGen.DOCSTRING_LINE_LENGTH) ∧
    (∀ m₀ mrest, PyStr.splitNL (StubGen.buildHelpBlock helpText) = m₀ :: mrest →
      StubGen.BODY_INDENT.length + m₀.length ≤ StubGen.DOCSTRING_LINE_LENGTH ∧
      ∀ l ∈ mrest, l.length ≤ StubGen.DOCSTRING_LINE_LENGTH) := by
  constructor
  · intro l₀ rest hsplit
    obtain ⟨l₀', rest', heq, h0, hr⟩ := StubGen.addProcBlurb_lines blurb
    rw [hsplit] at heq
    injection heq with he1 he2
    subst he1; subst he2
    refine ⟨?_, ?_⟩
    · rw [StubGen.BODY_INDENT_length]
      simp only [StubGen.DOCSTRING_LINE_LENGTH]
      omega
    · intro l hl
      simp only [StubGen.DOCSTRING_LINE_LENGTH]
      exact Nat.le_trans (hr l hl) (by omega)
  · intro m₀ mrest hsplit
    obtain ⟨m₀', mrest', heq, h0, hr⟩ := StubGen.buildHelpBlock_lines helpText
    rw [hsplit] at heq
    injection heq with he1 he2
    subst he1; subst he2
    refine ⟨?_, ?_⟩
    · rw [StubGen.BODY_INDENT_length]
      simp only [StubGen.DOCSTRING_LINE_LENGTH]
      omega
    · intro l hl
      simp only [StubGen.DOCSTRING_LINE_LENGTH]
      exact hr l hl

/-- Witness for C7 at a concrete blurb and help text. -/
theorem claim_C7_witness :
    (StubGen.BODY_INDENT.length + 3 + ("Makes a new image.".data).length ≤
        StubGen.DOCSTRING_LINE_LENGTH ∧
      ∀ l ∈ ([] : List PyStr.Str), l.length ≤ StubGen.DOCSTRING_LINE_LENGTH) ∧
    (StubGen.BODY_INDENT.length + ("Creates a fresh image.".data).length ≤
        StubGen.DOCSTRING_LINE_LENGTH ∧
      ∀ l ∈ ([] : List PyStr.Str), l.length ≤ StubGen.DOCSTRING_LINE_LENGTH) :=
  ⟨(claim_C7_docstring_lines_fit "makes a new image".data "creates a fresh image".data).1
      "Makes a new image.".data [] (by decide),
   (claim_C7_docstring_lines_fit "makes a new image".data "creates a fresh image".data).2
      "Creates a fresh image.".data [] (by decide)⟩

namespace PyAst

open PyStr

/-- Python constants (`ast.Constant` values) appearing in the wrapper
module and in generated stubs. Floats are carried by their `repr` text
(no float arithmetic occurs in the embedded code); `enumC` stands for a
live `GObject.GEnum` object stored directly in a `Constant` node. -/
inductive PyConst where
  | noneC
  | boolC (b : Bool)
  | intC (n : Int)
  | floatC (r : Str)
  | strC (s : Str)
  | bytesC (s : Str)
  | enumC (tag : Str)
  deriving DecidableEq, Repr

/-- Python expressions (the fragment needed by the wrapper module and the
stub generator). -/
inductive PyExpr where
  | nameE (id : Str)
  | attrE (val : PyExpr) (attr : Str)
  | subscriptE (val : PyExpr) (idx : PyExpr)
  | callE (fn : PyExpr) (args : List PyExpr)
  | constE (v : PyConst)
  | tupleE (elts : List PyExpr)

/-- A function argument; the annotation is recorded as the source text the
generator feeds to `ast.parse` when building the annotation node. -/
structure PyArg where
  nm : Str
  typeHint : Option Str
  deriving DecidableEq, Repr

/-- A default value attached to a function argument: either an
`ast.Constant` node or a node obtained by `ast.parse` of an expression
string (used for enum qualified names). -/
inductive PyDefault where
  | constD (v : PyConst)
  | parsedD (src : Str)
  deriving DecidableEq, Repr

/-- Python statements (the fragment needed here). `returns` is the return
annotation, recorded as source text. -/
inductive PyStmt where
  | funcDef (nm : Str) (args : List PyArg) (defaults : List PyDefault)
      (decorators : List PyExpr) (body : List PyStmt) (returns : Option Str)
  | classDef (nm : Str) (body : List PyStmt)
  | assign (targets : List PyExpr) (value : PyExpr)
  | exprStmt (e : PyExpr)
  | passStmt
  | importS (modname : Str)
  | importFromS (modname : Str) (names : List Str)
  | returnS (e : Option PyExpr)

/-- `isinstance(target.value, ast.Name) and target.value.id == 'self'` for
one assignment target. `ast.Attribute`, `ast.Subscript` and `ast.Starred`
have a `value` field holding the base expression; `ast.Name` and
`ast.Tuple` do not, so the attribute access raises `AttributeError`
(modelled as `none`). `ast.Constant.value` holds the constant itself,
which is not an `ast.Name`, giving `False` (`some false`); `ast.Call` has
no `value` field (`none`). -/
def assignTargetSelfCheck : PyExpr → Option Bool
  | .attrE v _ =>
    some (match v with | .nameE id => id = "self".data | _ => false)
  | .subscriptE v _ =>
    some (match v with | .nameE id => id = "self".data | _ => false)
  | .constE _ => some false
  | .callE _ _ => none
  | .nameE _ => none
  | .tupleE _ => none

/-- `all(... for target in body_node.targets)` with Python's
short-circuiting generator: the first `False` stops the scan; a target
without a `value` field raises `AttributeError` (`none`) only if reached
before any `False`. `all` of an empty sequence is `True`. -/
def allTargetsSelf : List PyExpr → Option Bool
  | [] => some true
  | t :: rest =>
    match assignTargetSelfCheck t with
    | none => none
    | some false => some false
    | some true => allTargetsSelf rest

/-- `body_node.value.func.value.func.id == 'super'` for an expression
statement, preceded by `isinstance(body_node.value, ast.Call)`; every
`AttributeError` in the attribute chain is caught and leads to deletion
(`false`). The callee's `value` field exists for `ast.Attribute` and
`ast.Subscript`; its content must itself be a call whose callee is the
bare name `super`. (An `ast.Constant` callee also has a `value` field, but
the subsequent `.func` access raises and is caught, so the result is
`false` all the same.) -/
def superCallCheck : PyExpr → Bool
  | .callE fn _ =>
    match fn with
    | .attrE v _ =>
      (match v with | .callE (.nameE g) _ => g = "super".data | _ => false)
    | .subscriptE v _ =>
      (match v with | .callE (.nameE g) _ => g = "super".data | _ => false)
    | _ => false
  | _ => false

/-- Per-statement action of `_remove_all_but_attributes_and_super_calls`:
`Except.error ()` models an uncaught `AttributeError`, `.ok none` a
deleted statement, `.ok (some s)` a kept (possibly modified) statement.
A kept assignment has its value replaced by `ast.parse('None')`'s
constant. -/
def initStmtAction : PyStmt → Except Unit (Option PyStmt)
  | .assign tgts _ =>
    match allTargetsSelf tgts with
    | none => .error ()
    | some true => .ok (some (.assign tgts (.constE .noneC)))
    | some false => .ok none
  | .exprStmt e => .ok (if superCallCheck e then some (.exprStmt e) else none)
  | _ => .ok none

/-- `_remove_all_but_attributes_and_super_calls` over an `__init__` body:
the Python source records indices to delete while scanning and deletes
them afterwards; since the per-statement decisions are independent and an
exception aborts the whole stub generation, this equals filtering with
the per-statement action, stopping at the first raise. -/
def filterInitBody : List PyStmt → Except Unit (List PyStmt)
  | [] => .ok []
  | s :: rest =>
    match initStmtAction s with
    | .error e => .error e
    | .ok none => filterInitBody rest
    | .ok (some s') =>
      match filterInitBody rest with
      | .error e => .error e
      | .ok r => .ok (s' :: r)

def filterInitBodyTotal (body : List PyStmt) : List PyStmt :=
  match filterInitBody body with
  | .ok l => l
  | .error _ => body

def exceptIsError : Except Unit (List PyStmt) → Bool
  | .error _ => true
  | .ok _ => false

mutual
/-- Does `ast.walk` raise while filtering some `__init__` body?
`ast.walk` enqueues a node's children before the caller's loop body
mutates the node, so even nodes of function bodies that are replaced by
`[pass]` are visited; an `__init__` anywhere in the original tree whose
body triggers the `AttributeError` of
`_remove_all_but_attributes_and_super_calls` makes the whole pass
raise. -/
def stmtWalkError : PyStmt → Bool
  | .funcDef nm _ _ _ body _ =>
    (nm = "__init__".data && exceptIsError (filterInitBody body)) ||
      stmtsWalkError body
  | .classDef _ body => stmtsWalkError body
  | _ => false

def stmtsWalkError : List PyStmt → Bool
  | [] => false
  | s :: rest => stmtWalkError s || stmtsWalkError rest
end

mutual
/-- The tree after `_remove_implementation_of_functions` when no
`AttributeError` is raised: every function body other than `__init__`
becomes `[pass]`, `__init__` bodies are filtered, class bodies are
processed recursively, all other statements are untouched. -/
def stripStmt : PyStmt → PyStmt
  | .funcDef nm args defaults decos body returns =>
    if nm = "__init__".data then
      .funcDef nm args defaults decos (filterInitBodyTotal body) returns
    else
      .funcDef nm args defaults decos [.passStmt] returns
  | .classDef nm body => .classDef nm (stripStmts body)
  | .assign tgts v => .assign tgts v
  | .exprStmt e => .exprStmt e
  | .passStmt => .passStmt
  | .importS m => .importS m
  | .importFromS m ns => .importFromS m ns
  | .returnS e => .returnS e

def stripStmts : List PyStmt → List PyStmt
  | [] => []
  | s :: rest => stripStmt s :: stripStmts rest
end

/-- `_remove_implementation_of_functions` from `stubgen.py`. -/
def removeImplementationOfFunctions (m : List PyStmt) :
    Except Unit (List PyStmt) :=
  if stmtsWalkError m then .error () else .ok (stripStmts m)

end PyAst

namespace PyAst

open PyStr

/-- Claim-side predicate: an assignment target that is an attribute access
on the bare name `self` (what C2 says is retained). -/
def isSelfAttrTarget : PyExpr → Bool
  | .attrE (.nameE id) _ => id = "self".data
  | _ => false

/-- What the stripping pass actually retains as an assignment target: an
attribute access or a subscript whose base expression is the bare name
`self`. -/
def isSelfBasedTarget : PyExpr → Bool
  | .attrE (.nameE id) _ => id = "self".data
  | .subscriptE (.nameE id) _ => id = "self".data
  | _ => false

/-- Whether the AST node of an assignment target has a `value` field
(`ast.Attribute`, `ast.Subscript`, `ast.Constant` do; `ast.Name`,
`ast.Tuple`, `ast.Call` do not). -/
def hasBaseValue : PyExpr → Bool
  | .attrE _ _ => true
  | .subscriptE _ _ => true
  | .constE _ => true
  | _ => false

/-- The target scan of `_remove_all_but_attributes_and_super_calls`
raises `AttributeError`: a target without a `value` field is reached
before any target that is not based on `self`. -/
def targetsRaise : List PyExpr → Bool
  | [] => false
  | t :: rest =>
    if !hasBaseValue t then true
    else if isSelfBasedTarget t then targetsRaise rest
    else false

/-- A statement on which the `__init__` filter raises. -/
def stmtRaises : PyStmt → Bool
  | .assign tgts _ => targetsRaise tgts
  | _ => false

/-- The amended description of what survives in an `__init__` body:
assignments in which every target is an attribute access or subscript
based on `self` (value replaced by `None`), and expression statements
whose callee's base expression is a call to the bare name `super`. -/
def amendedInitKeep : PyStmt → Option PyStmt
  | .assign tgts _ =>
    if tgts.all isSelfBasedTarget then some (.assign tgts (.constE .noneC))
    else none
  | .exprStmt e => if superCallCheck e then some (.exprStmt e) else none
  | _ => none

/-- What C2 as stated allows to remain in an `__init__` body: assignments
whose targets are all attributes of `self` with the value replaced by
`None`, and expression statements calling a method on the result of
`super()`. -/
def claimC2AllowedInInit : PyStmt → Bool
  | .assign tgts v =>
    tgts.all isSelfAttrTarget &&
      (match v with | .constE .noneC => true | _ => false)
  | .exprStmt e => superCallCheck e
  | _ => false

/-- The structural skeleton of a statement: class nesting and the
signatures of function definitions, ignoring function bodies. -/
inductive Shape where
  | funcS (nm : Str) (args : List PyArg) (defaults : List PyDefault)
      (ndecos : Nat) (returns : Option Str)
  | classS (nm : Str) (body : List Shape)
  | plainS

mutual
def stmtShape : PyStmt → Shape
  | .funcDef nm args defaults decos _ returns =>
    .funcS nm args defaults decos.length returns
  | .classDef nm body => .classS nm (stmtsShape body)
  | _ => .plainS

def stmtsShape : List PyStmt → List Shape
  | [] => []
  | s :: rest => stmtShape s :: stmtsShape rest
end

theorem assignTargetSelfCheck_eq_none (t : PyExpr) :
    assignTargetSelfCheck t = none ↔ hasBaseValue t = false := by
  cases t <;> simp [assignTargetSelfCheck, hasBaseValue]

theorem assignTargetSelfCheck_eq_some_true (t : PyExpr) :
    assignTargetSelfCheck t = some true ↔
      (hasBaseValue t = true ∧ isSelfBasedTarget t = true) := by
  cases t with
  | attrE v a => cases v <;> simp [assignTargetSelfCheck, hasBaseValue, isSelfBasedTarget]
  | subscriptE v i => cases v <;> simp [assignTargetSelfCheck, hasBaseValue, isSelfBasedTarget]
  | _ => simp [assignTargetSelfCheck, hasBaseValue, isSelfBasedTarget]

theorem allTargetsSelf_eq_none (tgts : List PyExpr) :
    allTargetsSelf tgts = none ↔ targetsRaise tgts = true := by
  induction tgts with
  | nil => simp [allTargetsSelf, targetsRaise]
  | cons t rest ih =>
    simp only [allTargetsSelf, targetsRaise]
    cases hc : assignTargetSelfCheck t with
    | none =>
      have hb := (assignTargetSelfCheck_eq_none t).mp hc
      simp [hb]
    | some b =>
      cases b with
      | true =>
        have hs := (assignTargetSelfCheck_eq_some_true t).mp hc
        simp [hs.1, hs.2, ih]
      | false =>
        have hb : hasBaseValue t = true := by
          cases hbv : hasBaseValue t with
          | false => exact absurd hc (by
              rw [(assignTargetSelfCheck_eq_none t).mpr hbv]; simp)
          | true => rfl
        have hns : isSelfBasedTarget t = false := by
          cases hsel : isSelfBasedTarget t with
          | true => exact absurd hc (by
              rw [(assignTargetSelfCheck_eq_some_true t).mpr ⟨hb, hsel⟩]; simp)
          | false => rfl
        simp [hb, hns]

theorem allTargetsSelf_eq_some_true (tgts : List PyExpr) :
    allTargetsSelf tgts = some true ↔ tgts.all isSelfBasedTarget = true := by
  induction tgts with
  | nil => simp [allTargetsSelf]
  | cons t rest ih =>
    simp only [allTargetsSelf, List.all_cons]
    cases hc : assignTargetSelfCheck t with
    | none =>
      have hb := (assignTargetSelfCheck_eq_none t).mp hc
      constructor
      · intro h; exact absurd h (by simp)
      · intro h
        have := (assignTargetSelfCheck_eq_some_true t).mpr
          ⟨?_, (Bool.and_eq_true _ _ ▸ h).1⟩
        · rw [this] at hc; exact absurd hc (by simp)
        · cases t <;> simp_all [hasBaseValue, isSelfBasedTarget]
    | some b =>
      cases b with
      | true =>
        have hs := (assignTargetSelfCheck_eq_some_true t).mp hc
        simp [hs.2, ih]
      | false =>
        have hns : isSelfBasedTarget t = false := by
          cases hsel : isSelfBasedTarget t with
          | true =>
            have hb : hasBaseValue t = true := by
              cases t <;> simp_all [hasBaseValue, isSelfBasedTarget]
            exact absurd hc (by
              rw [(assignTargetSelfCheck_eq_some_true t).mpr ⟨hb, hsel⟩]; simp)
          | false => rfl
        simp [hns]

theorem initStmtAction_ok (s : PyStmt) (x : Option PyStmt)
    (h : initStmtAction s = .ok x) : amendedInitKeep s = x := by
  cases s with
  | assign tgts v =>
    simp only [initStmtAction] at h
    cases hall : allTargetsSelf tgts with
    | none => rw [hall] at h; exact absurd h (by simp)
    | some b =>
      rw [hall] at h
      cases b with
      | true =>
        have := (allTargetsSelf_eq_some_true tgts).mp hall
        simp only [amendedInitKeep, this, if_pos]
        exact Except.ok.inj h
      | false =>
        have hna : tgts.all isSelfBasedTarget = false := by
          cases ha : tgts.all isSelfBasedTarget with
          | true => exact absurd hall (by
              rw [(allTargetsSelf_eq_some_true tgts).mpr ha]; simp)
          | false => rfl
        simp only [amendedInitKeep, hna]
        simp only [Bool.false_eq_true, if_false]
        exact Except.ok.inj h
  | exprStmt e =>
    simp only [initStmtAction] at h
    simp only [amendedInitKeep]
    exact Except.ok.inj h
  | funcDef nm args defaults decos body returns =>
    exact Except.ok.inj h
  | classDef nm body => exact Except.ok.inj h
  | passStmt => exact Except.ok.inj h
  | importS m => exact Except.ok.inj h
  | importFromS m ns => exact Except.ok.inj h
  | returnS e => exact Except.ok.inj h

theorem initStmtAction_error_iff (s : PyStmt) :
    (match initStmtAction s with | .error _ => true | .ok _ => false) =
      stmtRaises s := by
  cases s with
  | assign tgts v =>
    simp only [initStmtAction, stmtRaises]
    cases hall : allTargetsSelf tgts with
    | none =>
      have := (allTargetsSelf_eq_none tgts).mp hall
      simp [this]
    | some b =>
      have hnr : targetsRaise tgts = false := by
        cases hr : targetsRaise tgts with
        | true => exact absurd hall (by
            rw [(allTargetsSelf_eq_none tgts).mpr hr]; simp)
        | false => rfl
      cases b <;> simp [hnr]
  | exprStmt e => simp [initStmtAction, stmtRaises]
  | funcDef nm args defaults decos body returns => simp [initStmtAction, stmtRaises]
  | classDef nm body => simp [initStmtAction, stmtRaises]
  | passStmt => simp [initStmtAction, stmtRaises]
  | importS m => simp [initStmtAction, stmtRaises]
  | importFromS m ns => simp [initStmtAction, stmtRaises]
  | returnS e => simp [initStmtAction, stmtRaises]

theorem filterInitBody_ok_filterMap (body : List PyStmt)
    (kept : List PyStmt) (h : filterInitBody body = .ok kept) :
    kept = body.filterMap amendedInitKeep := by
  induction body generalizing kept with
  | nil =>
    simp only [filterInitBody] at h
    simp [← Except.ok.inj h]
  | cons s rest ih =>
    simp only [filterInitBody] at h
    cases hact : initStmtAction s with
    | error e => rw [hact] at h; exact absurd h (by simp)
    | ok x =>
      rw [hact] at h
      have hkeep := initStmtAction_ok s x hact
      cases x with
      | none =>
        simp only [List.filterMap_cons, hkeep]
        exact ih kept h
      | some s' =>
        cases hrest : filterInitBody rest with
        | error e => rw [hrest] at h; exact absurd h (by simp)
        | ok r =>
          rw [hrest] at h
          have := Except.ok.inj h
          subst this
          simp only [List.filterMap_cons, hkeep]
          rw [ih r hrest]

theorem filterInitBody_error_iff (body : List PyStmt) :
    exceptIsError (filterInitBody body) = body.any stmtRaises := by
  induction body with
  | nil => simp [filterInitBody, exceptIsError]
  | cons s rest ih =>
    simp only [filterInitBody, List.any_cons]
    cases hact : initStmtAction s with
    | error e =>
      have := initStmtAction_error_iff s
      rw [hact] at this
      simp [exceptIsError, ← this]
    | ok x =>
      have := initStmtAction_error_iff s
      rw [hact] at this
      simp only at this
      rw [← this, Bool.false_or]
      cases x with
      | none => exact ih
      | some s' =>
        cases hrest : filterInitBody rest with
        | error e =>
          rw [hrest] at ih
          simp [exceptIsError] at ih ⊢
          exact ih
        | ok r =>
          rw [hrest] at ih
          simp [exceptIsError] at ih ⊢
          exact ih

mutual
theorem stripStmt_shape (s : PyStmt) : stmtShape (stripStmt s) = stmtShape s := by
  cases s with
  | funcDef nm args defaults decos body returns =>
    simp only [stripStmt]
    split <;> rfl
  | classDef nm body =>
    simp only [stripStmt, stmtShape]
    rw [stripStmts_shape body]
  | assign tgts v => rfl
  | exprStmt e => rfl
  | passStmt => rfl
  | importS m => rfl
  | importFromS m ns => rfl
  | returnS e => rfl

theorem stripStmts_shape (l : List PyStmt) : stmtsShape (stripStmts l) = stmtsShape l := by
  cases l with
  | nil => rfl
  | cons s rest =>
    simp only [stripStmts, stmtsShape]
    rw [stripStmt_shape s, stripStmts_shape rest]
end

end PyAst

/-- **C2** counterexample: on a wrapper module whose `__init__` contains
`self[0] = 5`, the stripping pass keeps the statement (with its value
replaced by `None`) even though its target is a subscript, not an
attribute of `self` — the claim says every such statement is deleted. -/
theorem claim_C2_counterexample :
    PyAst.removeImplementationOfFunctions
      [PyAst.PyStmt.classDef "C".data
        [PyAst.PyStmt.funcDef "__init__".data [⟨"self".data, none⟩] [] []
          [PyAst.PyStmt.assign
            [PyAst.PyExpr.subscriptE (PyAst.PyExpr.nameE "self".data)
              (PyAst.PyExpr.constE (PyAst.PyConst.intC 0))]
            (PyAst.PyExpr.constE (PyAst.PyConst.intC 5))] none]] =
      Except.ok
        [PyAst.PyStmt.classDef "C".data
          [PyAst.PyStmt.funcDef "__init__".data [⟨"self".data, none⟩] [] []
            [PyAst.PyStmt.assign
              [PyAst.PyExpr.subscriptE (PyAst.PyExpr.nameE "self".data)
                (PyAst.PyExpr.constE (PyAst.PyConst.intC 0))]
              (PyAst.PyExpr.constE PyAst.PyConst.noneC)] none]] ∧
    PyAst.claimC2AllowedInInit
      (PyAst.PyStmt.assign
        [PyAst.PyExpr.subscriptE (PyAst.PyExpr.nameE "self".data)
          (PyAst.PyExpr.constE (PyAst.PyConst.intC 0))]
        (PyAst.PyExpr.constE PyAst.PyConst.noneC)) = false :=
  ⟨rfl, rfl⟩

/-- **C2** (amended): after the implementation-stripping pass (when it
does not raise), every function definition other than `__init__` has a
body of exactly one `pass` statement; every `__init__` body retains
exactly the assignments in which every target is an attribute access or
subscript whose base expression is the name `self` (with the assigned
value replaced by `None`) and the expression statements whose callee's
base expression is a call to the bare name `super`; an assignment whose
target scan reaches a target without a base expression (a bare name or a
tuple) before any non-`self`-based target makes the pass raise
`AttributeError` instead of deleting the statement; and the class and
function structure of the module is otherwise preserved. -/
theorem claim_C2_amended_strip :
    (∀ m m', PyAst.removeImplementationOfFunctions m = .ok m' →
      m' = PyAst.stripStmts m ∧
        PyAst.stmtsShape m' = PyAst.stmtsShape m) ∧
    (∀ nm args defaults decos body returns, nm ≠ "__init__".data →
      PyAst.stripStmt (PyAst.PyStmt.funcDef nm args defaults decos body returns) =
        PyAst.PyStmt.funcDef nm args defaults decos [PyAst.PyStmt.passStmt] returns) ∧
    (∀ args defaults decos body returns,
      PyAst.exceptIsError (PyAst.filterInitBody body) = false →
      PyAst.stripStmt
          (PyAst.PyStmt.funcDef "__init__".data args defaults decos body returns) =
        PyAst.PyStmt.funcDef "__init__".data args defaults decos
          (body.filterMap PyAst.amendedInitKeep) returns) ∧
    (∀ body, PyAst.exceptIsError (PyAst.filterInitBody body) =
      body.any PyAst.stmtRaises) := by
  refine ⟨?_, ?_, ?_, PyAst.filterInitBody_error_iff⟩
  · intro m m' h
    rw [PyAst.removeImplementationOfFunctions] at h
    split at h
    · exact absurd h (by simp)
    · have := Except.ok.inj h
      subst this
      exact ⟨rfl, PyAst.stripStmts_shape m⟩
  · intro nm args defaults decos body returns hnm
    simp [PyAst.stripStmt, hnm]
  · intro args defaults decos body returns herr
    simp only [PyAst.stripStmt, if_pos rfl]
    cases hfb : PyAst.filterInitBody body with
    | error e =>
      rw [hfb] at herr
      simp [PyAst.exceptIsError] at herr
    | ok kept =>
      rw [PyAst.filterInitBodyTotal, hfb,
        PyAst.filterInitBody_ok_filterMap body kept hfb]
      simp

/-- Witness for the amended C2 at concrete inputs. -/
theorem claim_C2_amended_witness :
    (PyAst.removeImplementationOfFunctions
        [PyAst.PyStmt.funcDef "f".data [] [] [] [PyAst.PyStmt.passStmt] none] =
          Except.ok [PyAst.PyStmt.funcDef "f".data [] [] []
            [PyAst.PyStmt.passStmt] none] →
      [PyAst.PyStmt.funcDef "f".data [] [] [] [PyAst.PyStmt.passStmt] none] =
          PyAst.stripStmts
            [PyAst.PyStmt.funcDef "f".data [] [] [] [PyAst.PyStmt.passStmt] none] ∧
        PyAst.stmtsShape
            [PyAst.PyStmt.funcDef "f".data [] [] [] [PyAst.PyStmt.passStmt] none] =
          PyAst.stmtsShape
            [PyAst.PyStmt.funcDef "f".data [] [] [] [PyAst.PyStmt.passStmt] none]) ∧
    PyAst.stripStmt
        (PyAst.PyStmt.funcDef "f".data [] [] []
          [PyAst.PyStmt.returnS (some (PyAst.PyExpr.constE (PyAst.PyConst.intC 1)))]
          none) =
      PyAst.PyStmt.funcDef "f".data [] [] [] [PyAst.PyStmt.passStmt] none ∧
    PyAst.stripStmt
        (PyAst.PyStmt.funcDef "__init__".data [⟨"self".data, none⟩] [] []
          [PyAst.PyStmt.assign
            [PyAst.PyExpr.attrE (PyAst.PyExpr.nameE "self".data) "x".data]
            (PyAst.PyExpr.constE (PyAst.PyConst.intC 1)),
           PyAst.PyStmt.returnS none] none) =
      PyAst.PyStmt.funcDef "__init__".data [⟨"self".data, none⟩] [] []
        ([PyAst.PyStmt.assign
            [PyAst.PyExpr.attrE (PyAst.PyExpr.nameE "self".data) "x".data]
            (PyAst.PyExpr.constE (PyAst.PyConst.intC 1)),
          PyAst.PyStmt.returnS none].filterMap PyAst.amendedInitKeep) none :=
  ⟨claim_C2_amended_strip.1
      [PyAst.PyStmt.funcDef "f".data [] [] [] [PyAst.PyStmt.passStmt] none]
      [PyAst.PyStmt.funcDef "f".data [] [] [] [PyAst.PyStmt.passStmt] none],
   claim_C2_amended_strip.2.1 "f".data [] [] []
      [PyAst.PyStmt.returnS (some (PyAst.PyExpr.constE (PyAst.PyConst.intC 1)))]
      none (by decide),
   claim_C2_amended_strip.2.2.1 [⟨"self".data, none⟩] [] []
      [PyAst.PyStmt.assign
          [PyAst.PyExpr.attrE (PyAst.PyExpr.nameE "self".data) "x".data]
          (PyAst.PyExpr.constE (PyAst.PyConst.intC 1)),
        PyAst.PyStmt.returnS none] none (by rfl)⟩

namespace StubGen

open PyStr

/-- The data of a runtime `GObject.GEnum` value and its Python enum type,
as observed through introspection: `value_name`/`value_nick`, the type's
`__module__`/`__qualname__`, the sorted attribute list `dir(type(v))`,
the `value_nick`s of all members (`__enum_values__`), and — as ground
truth supplied by the runtime, not computed by the generator — the name of
the type attribute that actually denotes this value. -/
structure EnumVal where
  valueName : Str
  valueNick : Str
  typeModule : Str
  typeQualname : Str
  typeDirSorted : List Str
  enumTypeNicks : List Str
  memberOfValue : Str
  deriving DecidableEq, Repr

/-- `_get_enum_value_as_string` from `stubgen.py`: strip the
`gi.repository.` prefix from the type's module, then scan `dir(type(v))`
in order and return the first attribute name that is a suffix of the
value's `value_name` (or of its upper- or lower-cased form), fully
qualified; `None` if no attribute matches. -/
def getEnumValueAsString (e : EnumVal) : Option Str :=
  let enumTypeModuleName :=
    if ("gi.repository.".data).isPrefixOf e.typeModule then e.typeModule.drop 14
    else e.typeModule
  let tries := [e.valueName, e.valueName.map Char.toUpper, e.valueName.map Char.toLower]
  match e.typeDirSorted.find? (fun nm => tries.any (fun vn => nm.isSuffixOf vn)) with
  | some nm => some (enumTypeModuleName ++ '.' :: e.typeQualname ++ '.' :: nm)
  | none => none

/-- `Gimp.RunMode.NONINTERACTIVE` as introspected at runtime:
`value_name` is `GIMP_RUN_NONINTERACTIVE`, and `dir(Gimp.RunMode)` lists
the members in sorted order, `INTERACTIVE` first. -/
def runModeNoninteractive : EnumVal :=
  { valueName := "GIMP_RUN_NONINTERACTIVE".data
    valueNick := "noninteractive".data
    typeModule := "gi.repository.Gimp".data
    typeQualname := "RunMode".data
    typeDirSorted := ["INTERACTIVE".data, "NONINTERACTIVE".data, "WITH_LAST_VALS".data]
    enumTypeNicks := ["interactive".data, "noninteractive".data, "with-last-vals".data]
    memberOfValue := "NONINTERACTIVE".data }

end StubGen

/-- **C3** (code bug): for a parameter whose runtime default is
`Gimp.RunMode.NONINTERACTIVE`, `_get_enum_value_as_string` emits
`Gimp.RunMode.INTERACTIVE` — the first `dir()` entry that is a suffix of
the value name `GIMP_RUN_NONINTERACTIVE` — which denotes a different enum
value than the parameter's actual default (`NONINTERACTIVE`), contrary to
the claim that the emitted qualified name denotes the actual default. -/
theorem claim_C3_wrong_enum_member :
    StubGen.getEnumValueAsString StubGen.runModeNoninteractive =
      some "Gimp.RunMode.INTERACTIVE".data ∧
    StubGen.runModeNoninteractive.memberOfValue = "NONINTERACTIVE".data ∧
    ¬ ("Gimp.RunMode.INTERACTIVE".data =
        "Gimp.RunMode.".data ++ StubGen.runModeNoninteractive.memberOfValue) :=
  ⟨by decide, by decide, by decide⟩

namespace PyPdb

open PyStr

/-- `Gimp.PDBStatusType`. -/
inductive PDBStatus where
  | success | passThrough | executionError | callingError | cancel
  deriving DecidableEq, Repr

/-- `Gimp.RunMode`. -/
inductive RunMode where
  | interactive | noninteractive | withLastVals
  deriving DecidableEq, Repr

/-- Values travelling through a PDB call: status values (recognizable via
`isinstance(v, Gimp.PDBStatusType)`), run-mode values, and everything
else. -/
inductive Value where
  | statusV (s : PDBStatus)
  | runModeV (m : RunMode)
  | otherV (tag : Str)
  deriving DecidableEq, Repr

/-- What `pypdb.py` observes about one declared procedure argument:
whether `value_type.pytype` is present (truthy) and whether
`issubclass(pytype, Gimp.RunMode)`. -/
structure PdbArgInfo where
  pytypeExists : Bool
  pytypeIsRunModeSub : Bool
  deriving DecidableEq, Repr

/-- The result of `Gimp.get_pdb().lookup_procedure(...)`: the declared
arguments. -/
structure ProcSig where
  arguments : List PdbArgInfo
  deriving DecidableEq, Repr

/-- An opaque `Gimp.ProcedureConfig`. -/
abbrev Config := Nat

/-- A call made against the PDB runtime: either
`run_procedure(name, args)` or `run_procedure_config(name, config)`. -/
inductive PdbInvocation where
  | runProc (nm : Str) (args : List Value)
  | runProcConfig (nm : Str) (config : Config)
  deriving DecidableEq, Repr

/-- The PDB runtime as an oracle: procedure lookup and procedure
execution (`None` or a `Gimp.ValueArray`, already read out into a
list by `[result.index(i) for i in range(result.length())]`). -/
structure Runtime where
  lookupProcedure : Str → Option ProcSig
  run : PdbInvocation → Option (List Value)

/-- `PyPDBProcedure._get_has_run_mode`: the first declared argument's
`pytype` exists and is a subclass of `Gimp.RunMode`. -/
def getHasRunMode (info : ProcSig) : Bool :=
  match info.arguments with
  | a :: _ => if a.pytypeExists then a.pytypeIsRunModeSub else false
  | [] => false

/-- A constructed `PyPDBProcedure`: name, looked-up info, cached
`has_run_mode`. -/
structure PyPDBProcedure where
  nm : Str
  info : ProcSig
  hasRunMode : Bool
  deriving DecidableEq, Repr

/-- `PyPDBProcedure.__init__`: look the procedure up and compute
`_get_has_run_mode`. When the lookup returns `None`, `_get_has_run_mode`
raises `AttributeError` on `None.get_arguments()`, so construction fails
(`none`). -/
def mkPyPDBProcedure (rt : Runtime) (procName : Str) : Option PyPDBProcedure :=
  match rt.lookupProcedure procName with
  | some info => some ⟨procName, info, getHasRunMode info⟩
  | none => none

/-- The mutable state of the `_PyPDB` wrapper: `_last_status`,
`_last_error` and `_proc_cache`. -/
structure PyPDBState where
  lastStatus : Option PDBStatus
  lastError : Option Value
  procCache : List (Str × PyPDBProcedure)
  deriving DecidableEq

/-- `_PyPDB.__getattr__`: hyphenate the attribute name
(`name.replace('_', '-')`), create and cache the procedure wrapper on
first access, reuse the cache afterwards. -/
def pyPdbGetattr (rt : Runtime) (st : PyPDBState) (nm : Str) :
    Option (PyPDBState × PyPDBProcedure) :=
  match st.procCache.lookup (underscoreToHyphen nm) with
  | some proc => some (st, proc)
  | none =>
    match mkPyPDBProcedure rt (underscoreToHyphen nm) with
    | some proc =>
      some ({st with procCache := (underscoreToHyphen nm, proc) :: st.procCache},
        proc)
    | none => none

/-- The dispatch in `PyPDBProcedure.__call__`: with no config and
`has_run_mode`, the run-mode keyword value is prepended to the positional
arguments of `run_procedure`; with no config and no run mode, the
positional arguments are passed as-is; with a config,
`run_procedure_config` is called and the positional arguments do not
enter the invocation at all. -/
def buildInvocation (proc : PyPDBProcedure) (args : List Value)
    (runMode : RunMode) (config : Option Config) : PdbInvocation :=
  match config with
  | none =>
    if proc.hasRunMode then .runProc proc.nm (Value.runModeV runMode :: args)
    else .runProc proc.nm args
  | some cfg => .runProcConfig proc.nm cfg

/-- What a call returns to Python: `None`, a single value, or a list. -/
inductive CallResult where
  | noneR
  | single (v : Value)
  | multiple (vs : List Value)
  deriving DecidableEq, Repr

/-- The result handling of `PyPDBProcedure.__call__` after the runtime
returned: pop a leading status into `_last_status`; if values remain,
clear `_last_error` when the wrapper's current status is `SUCCESS` or
`PASS_THROUGH` and otherwise pop the next value into `_last_error`;
return `None`/the single value/the remaining list. -/
def processResult (st : PyPDBState) (res : Option (List Value)) :
    PyPDBState × CallResult :=
  match res with
  | none => (st, .noneR)
  | some resultList =>
    let step1 :=
      match resultList with
      | Value.statusV s :: rest => ({st with lastStatus := some s}, rest)
      | _ => (st, resultList)
    let step2 :=
      if step1.2.length > 0 then
        if step1.1.lastStatus = some .success ∨ step1.1.lastStatus = some .passThrough then
          ({step1.1 with lastError := none}, step1.2)
        else
          match step1.2 with
          | e :: rest' => ({step1.1 with lastError := some e}, rest')
          | [] => step1
      else step1
    match step2.2 with
    | [] => (step2.1, .noneR)
    | [v] => (step2.1, .single v)
    | vs => (step2.1, .multiple vs)

/-- `PyPDBProcedure.__call__`. -/
def pypdbCall (rt : Runtime) (st : PyPDBState) (proc : PyPDBProcedure)
    (args : List Value) (runMode : RunMode) (config : Option Config) :
    PyPDBState × CallResult :=
  processResult st (rt.run (buildInvocation proc args runMode config))

/-- The cache invariant of `_PyPDB`: every cached entry is stored under
its own procedure name and has a consistent `has_run_mode`. -/
def cacheWF (st : PyPDBState) : Prop :=
  ∀ kp ∈ st.procCache, kp.2.nm = kp.1 ∧ kp.2.hasRunMode = getHasRunMode kp.2.info

end PyPdb

namespace PyPdb

/-- C5's description of the call-result handling, written from the
claim's words: if the runtime returns `None` the call returns `None`;
otherwise, if the first result value is a `Gimp.PDBStatusType` it is
removed and stored as the wrapper's `last_status`; if values remain,
`last_error` is set to `None` when `last_status` is `SUCCESS` or
`PASS_THROUGH`, and otherwise the next value is removed and stored as
`last_error`; the call then returns `None` when no values remain, the
single value when exactly one remains, and the list of remaining values
otherwise. -/
def claimC5Spec (st : PyPDBState) (res : Option (List Value)) :
    PyPDBState × CallResult :=
  match res with
  | none => (st, .noneR)
  | some vals =>
    let afterStatus : PyPDBState × List Value :=
      match vals with
      | Value.statusV s :: rest => ({st with lastStatus := some s}, rest)
      | _ => (st, vals)
    let afterError : PyPDBState × List Value :=
      match afterStatus.2 with
      | [] => (afterStatus.1, [])
      | v :: rest =>
        if afterStatus.1.lastStatus = some .success ∨
            afterStatus.1.lastStatus = some .passThrough then
          ({afterStatus.1 with lastError := none}, v :: rest)
        else ({afterStatus.1 with lastError := some v}, rest)
    match afterError.2 with
    | [] => (afterError.1, .noneR)
    | [v] => (afterError.1, .single v)
    | vs => (afterError.1, .multiple vs)

end PyPdb

/-- **C5**: `PyPDBProcedure.__call__` realizes exactly the result handling
stated by the claim: a `None` runtime result yields `None`; a leading
`PDBStatusType` is removed and stored as `last_status`; when values
remain, `last_error` is cleared for `SUCCESS`/`PASS_THROUGH` and otherwise
the next value is removed and stored as `last_error`; the return value is
`None`, the single remaining value, or the list of remaining values. -/
theorem claim_C5_call_result_handling (rt : PyPdb.Runtime) (st : PyPdb.PyPDBState)
    (proc : PyPdb.PyPDBProcedure) (args : List PyPdb.Value)
    (runMode : PyPdb.RunMode) (config : Option PyPdb.Config) :
    PyPdb.pypdbCall rt st proc args runMode config =
      PyPdb.claimC5Spec st (rt.run (PyPdb.buildInvocation proc args runMode config)) := by
  unfold PyPdb.pypdbCall
  generalize rt.run (PyPdb.buildInvocation proc args runMode config) = res
  cases res with
  | none => rfl
  | some vals =>
    cases vals with
    | nil => rfl
    | cons v rest =>
      cases v with
      | statusV s =>
        cases rest with
        | nil => rfl
        | cons e rest2 =>
          by_cases hc : ((some s : Option PyPdb.PDBStatus) = some .success ∨
              (some s : Option PyPdb.PDBStatus) = some .passThrough)
          · simp only [PyPdb.processResult, PyPdb.claimC5Spec, if_pos hc]
            simp [hc]
          · simp only [PyPdb.processResult, PyPdb.claimC5Spec]
            simp [hc]
      | runModeV m =>
        by_cases hc : (st.lastStatus = some .success ∨ st.lastStatus = some .passThrough)
        · simp only [PyPdb.processResult, PyPdb.claimC5Spec]
          simp [hc]
        · simp only [PyPdb.processResult, PyPdb.claimC5Spec]
          simp [hc]
      | otherV tag =>
        by_cases hc : (st.lastStatus = some .success ∨ st.lastStatus = some .passThrough)
        · simp only [PyPdb.processResult, PyPdb.claimC5Spec]
          simp [hc]
        · simp only [PyPdb.processResult, PyPdb.claimC5Spec]
          simp [hc]


namespace PyPdb

open PyStr

theorem cacheLookup_mem (l : List (Str × PyPDBProcedure)) (k : Str)
    (v : PyPDBProcedure) (h : l.lookup k = some v) : (k, v) ∈ l := by
  induction l with
  | nil => simp [List.lookup] at h
  | cons kv rest ih =>
    rcases kv with ⟨k1, v1⟩
    simp only [List.lookup] at h
    cases hbeq : k == k1 with
    | true =>
      rw [hbeq] at h
      have hk : k = k1 := eq_of_beq hbeq
      have hv : v1 = v := by simpa using h
      subst hk; subst hv
      simp
    | false =>
      rw [hbeq] at h
      exact List.mem_cons_of_mem _ (ih h)

/-- The attribute lookup binds a procedure whose name is the hyphenated
attribute name, with a consistent `has_run_mode`, preserving the cache
invariant. -/
theorem pyPdbGetattr_spec (rt : Runtime) (st : PyPDBState) (nm : Str)
    (st' : PyPDBState) (proc : PyPDBProcedure) (hwf : cacheWF st)
    (h : pyPdbGetattr rt st nm = some (st', proc)) :
    proc.nm = underscoreToHyphen nm ∧
      proc.hasRunMode = getHasRunMode proc.info ∧ cacheWF st' := by
  rw [pyPdbGetattr] at h
  cases hlk : List.lookup (underscoreToHyphen nm) st.procCache with
  | some p =>
    rw [hlk] at h
    simp only [] at h
    injection h with h1
    injection h1 with hst hpr
    subst hpr
    have hmem := cacheLookup_mem _ _ _ hlk
    have hwfp := hwf _ hmem
    exact ⟨hwfp.1, hwfp.2, hst ▸ hwf⟩
  | none =>
    rw [hlk] at h
    simp only [] at h
    cases hmk : mkPyPDBProcedure rt (underscoreToHyphen nm) with
    | none => rw [hmk] at h; exact absurd h (by simp)
    | some p =>
      rw [hmk] at h
      simp only [] at h
      injection h with h1
      injection h1 with hst hpr
      subst hpr
      rw [mkPyPDBProcedure] at hmk
      cases hlp : rt.lookupProcedure (underscoreToHyphen nm) with
      | none => rw [hlp] at hmk; exact absurd hmk (by simp)
      | some info =>
        rw [hlp] at hmk
        simp only [] at hmk
        injection hmk with hpv
        refine ⟨by rw [← hpv], by rw [← hpv], ?_⟩
        rw [← hst]
        intro kp hkp
        rcases List.mem_cons.mp hkp with hkp | hkp
        · subst hkp
          rw [← hpv]
          exact ⟨rfl, rfl⟩
        · exact hwf _ hkp

end PyPdb

/-- **C4**: for every attribute access `pdb.<name>`, the procedure the
wrapper binds (and therefore invokes) is the one whose canonical name is
`<name>` with every underscore replaced by a hyphen; when the procedure's
first declared argument is of type `Gimp.RunMode` (its `pytype` exists
and is a `Gimp.RunMode` subclass) and no config is passed, the invocation
is `run_procedure` with the `run_mode` keyword value prepended to the
positional arguments; when a config is passed, the invocation is
`run_procedure_config` with that config, and the positional arguments
(and run mode) do not influence the invocation. -/
theorem claim_C4_getattr_dispatch :
    (∀ (rt : PyPdb.Runtime) (st : PyPdb.PyPDBState) (nm : PyStr.Str)
        (st' : PyPdb.PyPDBState) (proc : PyPdb.PyPDBProcedure),
      PyPdb.cacheWF st →
      PyPdb.pyPdbGetattr rt st nm = some (st', proc) →
      proc.nm = PyStr.underscoreToHyphen nm ∧ PyPdb.cacheWF st') ∧
    (∀ (rt : PyPdb.Runtime) (st : PyPdb.PyPDBState) (nm : PyStr.Str)
        (st' : PyPdb.PyPDBState) (proc : PyPdb.PyPDBProcedure)
        (a : PyPdb.PdbArgInfo) (restArgs : List PyPdb.PdbArgInfo)
        (args : List PyPdb.Value) (rm : PyPdb.RunMode),
      PyPdb.cacheWF st →
      PyPdb.pyPdbGetattr rt st nm = some (st', proc) →
      proc.info.arguments = a :: restArgs →
      a.pytypeExists = true → a.pytypeIsRunModeSub = true →
      PyPdb.buildInvocation proc args rm none =
        PyPdb.PdbInvocation.runProc (PyStr.underscoreToHyphen nm)
          (PyPdb.Value.runModeV rm :: args)) ∧
    (∀ (proc : PyPdb.PyPDBProcedure) (args args' : List PyPdb.Value)
        (rm rm' : PyPdb.RunMode) (cfg : PyPdb.Config),
      PyPdb.buildInvocation proc args rm (some cfg) =
          PyPdb.PdbInvocation.runProcConfig proc.nm cfg ∧
        PyPdb.buildInvocation proc args rm (some cfg) =
          PyPdb.buildInvocation proc args' rm' (some cfg)) := by
  refine ⟨?_, ?_, ?_⟩
  · intro rt st nm st' proc hwf h
    have := PyPdb.pyPdbGetattr_spec rt st nm st' proc hwf h
    exact ⟨this.1, this.2.2⟩
  · intro rt st nm st' proc a restArgs args rm hwf h hargs hex hsub
    obtain ⟨hnm, hhrm, -⟩ := PyPdb.pyPdbGetattr_spec rt st nm st' proc hwf h
    have hrm : proc.hasRunMode = true := by
      rw [hhrm]
      simp [PyPdb.getHasRunMode, hargs, hex, hsub]
    rw [PyPdb.buildInvocation]
    simp only [hrm, if_pos, hnm]
  · intro proc args args' rm rm' cfg
    exact ⟨rfl, rfl⟩

/-- Witness for C4 at a concrete runtime, cache and procedure. -/
theorem claim_C4_witness :
    ((⟨"gimp-image-new".data, ⟨[⟨true, true⟩]⟩, true⟩ :
          PyPdb.PyPDBProcedure).nm =
        PyStr.underscoreToHyphen "gimp_image_new".data ∧
      PyPdb.cacheWF
        ⟨none, none, [("gimp-image-new".data,
          ⟨"gimp-image-new".data, ⟨[⟨true, true⟩]⟩, true⟩)]⟩) ∧
    PyPdb.buildInvocation
        (⟨"gimp-image-new".data, ⟨[⟨true, true⟩]⟩, true⟩ : PyPdb.PyPDBProcedure)
        [] PyPdb.RunMode.noninteractive none =
      PyPdb.PdbInvocation.runProc (PyStr.underscoreToHyphen "gimp_image_new".data)
        (PyPdb.Value.runModeV PyPdb.RunMode.noninteractive :: []) ∧
    (PyPdb.buildInvocation
        (⟨"gimp-image-new".data, ⟨[⟨true, true⟩]⟩, true⟩ : PyPdb.PyPDBProcedure)
        [] PyPdb.RunMode.noninteractive (some 7) =
      PyPdb.PdbInvocation.runProcConfig "gimp-image-new".data 7 ∧
    PyPdb.buildInvocation
        (⟨"gimp-image-new".data, ⟨[⟨true, true⟩]⟩, true⟩ : PyPdb.PyPDBProcedure)
        [] PyPdb.RunMode.noninteractive (some 7) =
      PyPdb.buildInvocation
        (⟨"gimp-image-new".data, ⟨[⟨true, true⟩]⟩, true⟩ : PyPdb.PyPDBProcedure)
        [PyPdb.Value.otherV "x".data] PyPdb.RunMode.interactive (some 7)) :=
  ⟨claim_C4_getattr_dispatch.1
      ⟨fun nm => if nm = "gimp-image-new".data then some ⟨[⟨true, true⟩]⟩ else none,
        fun _ => none⟩
      ⟨none, none, []⟩
      "gimp_image_new".data
      ⟨none, none, [("gimp-image-new".data,
        ⟨"gimp-image-new".data, ⟨[⟨true, true⟩]⟩, true⟩)]⟩
      ⟨"gimp-image-new".data, ⟨[⟨true, true⟩]⟩, true⟩
      (by simp [PyPdb.cacheWF]) (by rfl),
   claim_C4_getattr_dispatch.2.1
      ⟨fun nm => if nm = "gimp-image-new".data then some ⟨[⟨true, true⟩]⟩ else none,
        fun _ => none⟩
      ⟨none, none, []⟩
      "gimp_image_new".data
      ⟨none, none, [("gimp-image-new".data,
        ⟨"gimp-image-new".data, ⟨[⟨true, true⟩]⟩, true⟩)]⟩
      ⟨"gimp-image-new".data, ⟨[⟨true, true⟩]⟩, true⟩
      ⟨true, true⟩ [] [] PyPdb.RunMode.noninteractive
      (by simp [PyPdb.cacheWF]) (by rfl) rfl rfl rfl,
   claim_C4_getattr_dispatch.2.2
      ⟨"gimp-image-new".data, ⟨[⟨true, true⟩]⟩, true⟩
      [] [PyPdb.Value.otherV "x".data]
      PyPdb.RunMode.noninteractive PyPdb.RunMode.interactive 7⟩

namespace ProcReg

open PyStr

/-- An opaque `GObject.Property(**param)` value: represented by the
keyword dictionary it was built from. -/
structure PropVal where
  fromDict : List (Str × Str)
  deriving DecidableEq, Repr

/-- One element of an `arguments`/`return_values`/`auxiliary_arguments`
list: a dictionary (with an optional `name` key, the remaining items kept
opaque), a string, or a value of any other type. -/
inductive ParamSpecIn where
  | dictP (nameKey : Option Str) (rest : List (Str × Str))
  | strP (s : Str)
  | otherP (tag : Str)
  deriving DecidableEq, Repr

/-- The whole `arguments`-style parameter of `register_procedure`:
`None`, a plain string (iterable but explicitly rejected), any other
non-iterable value, or a list of elements. -/
inductive ParamsArg where
  | noneA
  | strA (s : Str)
  | notIterableA (tag : Str)
  | listA (l : List ParamSpecIn)
  deriving DecidableEq, Repr

/-- The exceptions raised by `register_procedure` and
`_parse_and_check_parameters`. -/
inductive RegError where
  | typeErrorNotIterable
  | valueErrorMissingName
  | valueErrorNameNotSpecifiedBefore
  | typeErrorBadElement
  | valueErrorAlreadyRegistered
  deriving DecidableEq, Repr

/-- Dictionary insert/overwrite (`d[k] = v`), keeping insertion order for
new keys. -/
def upsert (l : List (Str × PropVal)) (k : Str) (v : PropVal) :
    List (Str × PropVal) :=
  if (l.lookup k).isSome then
    l.map (fun kv => if kv.1 = k then (k, v) else kv)
  else l ++ [(k, v)]

/-- The loop of `_parse_and_check_parameters` over the elements of a
parameter list. Returns the mutated `_PLUGIN_PROPERTIES` (mutations
before a raise persist) and either an error or the
`processed_parameters` dictionary. -/
def parseParamsLoop (props : List (Str × PropVal))
    (acc : List (Str × PropVal)) :
    List ParamSpecIn → List (Str × PropVal) × Except RegError (List (Str × PropVal))
  | [] => (props, .ok acc)
  | p :: rest =>
    match p with
    | .dictP nameKey drest =>
      match nameKey with
      | none => (props, .error .valueErrorMissingName)
      | some nm0 =>
        let nm := underscoreToHyphen nm0
        let props' :=
          if (props.lookup nm).isSome then props else props ++ [(nm, ⟨drest⟩)]
        let v :=
          match props'.lookup nm with
          | some v => v
          | none => ⟨drest⟩
        parseParamsLoop props' (upsert acc nm v) rest
    | .strP s =>
      let nm := underscoreToHyphen s
      match props.lookup nm with
      | none => (props, .error .valueErrorNameNotSpecifiedBefore)
      | some v => parseParamsLoop props (upsert acc nm v) rest
    | .otherP _ => (props, .error .typeErrorBadElement)

/-- `_parse_and_check_parameters` from `procedure.py`: `None` passes
through; a non-iterable or a plain string raises `TypeError`; a list is
processed element-wise (dictionaries create/reuse module-level
`GObject.Property` objects keyed by the hyphenated name, strings must
refer to a previously created property, anything else raises
`TypeError`). -/
def parseAndCheckParameters (props : List (Str × PropVal)) :
    ParamsArg → List (Str × PropVal) × Except RegError (Option (List (Str × PropVal)))
  | .noneA => (props, .ok none)
  | .strA _ => (props, .error .typeErrorNotIterable)
  | .notIterableA _ => (props, .error .typeErrorNotIterable)
  | .listA l =>
    let r := parseParamsLoop props [] l
    (r.1, r.2.map some)

/-- The value stored under one key of a procedure's registration dict;
only the parsed parameter dictionaries are structured, the rest mirror
the passed-through arguments as opaque tags. -/
inductive RegEntry where
  | opaqueE (tag : Str)
  | paramsE (v : Option (List (Str × PropVal)))
  deriving DecidableEq, Repr

/-- The module-level state of `procedure.py`:
`_PROCEDURE_NAMES_AND_DATA` and `_PLUGIN_PROPERTIES`. -/
structure RegState where
  procedures : List (Str × List (Str × RegEntry))
  pluginProps : List (Str × PropVal)
  deriving DecidableEq, Repr

/-- The arguments of `register_procedure` that matter here; the function
name plays the role of `procedure.__name__`. -/
structure RegArgs where
  funcName : Str
  arguments : ParamsArg
  returnValues : ParamsArg
  auxiliaryArguments : ParamsArg
  deriving DecidableEq, Repr

/-- `proc_dict[k] = v` (keys are set in code order and are fresh). -/
def setEntry (d : List (Str × RegEntry)) (k : Str) (v : RegEntry) :
    List (Str × RegEntry) :=
  d ++ [(k, v)]

/-- Store the (partially built) proc dict under its name; `proc_dict` is
an alias into `_PROCEDURE_NAMES_AND_DATA`, so everything assigned before
a raise persists in the registry. -/
def setProc (st : RegState) (nm : Str) (d : List (Str × RegEntry)) : RegState :=
  { st with
    procedures := st.procedures.map fun kv => if kv.1 = nm then (nm, d) else kv }

/-- `register_procedure` from `procedure.py`: hyphenate the function
name, raise `ValueError` when it is already registered, insert the (still
empty) dict into the registry, then fill it key by key — the three
parameter lists are validated by `_parse_and_check_parameters` only after
the insertion, so a validation error leaves the name registered with the
keys set so far. -/
def register_procedure (st : RegState) (args : RegArgs) :
    RegState × Except RegError Unit :=
  let procName := underscoreToHyphen args.funcName
  if (st.procedures.lookup procName).isSome then
    (st, .error .valueErrorAlreadyRegistered)
  else
    let st1 : RegState :=
      { st with procedures := st.procedures ++ [(procName, [])] }
    let d := setEntry [] "procedure".data (.opaqueE args.funcName)
    let d := setEntry d "procedure_type".data (.opaqueE "procedure_type".data)
    let pr1 := parseAndCheckParameters st1.pluginProps args.arguments
    match pr1.2 with
    | .error e => (setProc { st1 with pluginProps := pr1.1 } procName d, .error e)
    | .ok argsParsed =>
      let d := setEntry d "arguments".data (.paramsE argsParsed)
      let pr2 := parseAndCheckParameters pr1.1 args.returnValues
      match pr2.2 with
      | .error e => (setProc { st1 with pluginProps := pr2.1 } procName d, .error e)
      | .ok retsParsed =>
        let d := setEntry d "return_values".data (.paramsE retsParsed)
        let d := setEntry d "menu_label".data (.opaqueE "menu_label".data)
        let d := setEntry d "menu_path".data (.opaqueE "menu_path".data)
        let d := setEntry d "image_types".data (.opaqueE "image_types".data)
        let d := setEntry d "sensitivity_mask".data (.opaqueE "sensitivity_mask".data)
        let d := setEntry d "documentation".data (.opaqueE "documentation".data)
        let d := setEntry d "attribution".data (.opaqueE "attribution".data)
        let pr3 := parseAndCheckParameters pr2.1 args.auxiliaryArguments
        match pr3.2 with
        | .error e => (setProc { st1 with pluginProps := pr3.1 } procName d, .error e)
        | .ok auxParsed =>
          let d := setEntry d "auxiliary_arguments".data (.paramsE auxParsed)
          let d := setEntry d "run_data".data (.opaqueE "run_data".data)
          let d := setEntry d "init_ui".data (.opaqueE "init_ui".data)
          let d := setEntry d "pdb_procedure_type".data
            (.opaqueE "pdb_procedure_type".data)
          let d := setEntry d "additional_init".data (.opaqueE "additional_init".data)
          (setProc { st1 with pluginProps := pr3.1 } procName d, .ok ())

end ProcReg

namespace ProcReg

open PyStr

theorem lookup_append_right {β : Type} (l l2 : List (Str × β)) (k : Str)
    (h : l.lookup k = none) : (l ++ l2).lookup k = l2.lookup k := by
  induction l with
  | nil => simp
  | cons kv rest ih =>
    rcases kv with ⟨k1, v1⟩
    simp only [List.lookup] at h ⊢
    cases hbeq : k == k1 with
    | true => rw [hbeq] at h; exact absurd h (by simp)
    | false =>
      rw [hbeq] at h
      simp only [List.cons_append, List.lookup, hbeq]
      exact ih h

theorem lookup_map_replace (l : List (Str × List (Str × RegEntry))) (nm : Str)
    (d : List (Str × RegEntry)) (h : (l.lookup nm).isSome = true) :
    (l.map (fun kv => if kv.1 = nm then (nm, d) else kv)).lookup nm = some d := by
  induction l with
  | nil => simp [List.lookup] at h
  | cons kv rest ih =>
    rcases kv with ⟨k1, v1⟩
    by_cases hk : k1 = nm
    · subst hk
      simp only [List.map_cons, if_pos rfl]
      simp [List.lookup]
    · simp only [List.map_cons, if_neg hk]
      have hbeq : (nm == k1) = false :=
        beq_eq_false_iff_ne.mpr (fun hc => hk hc.symm)
      simp only [List.lookup, hbeq]
      apply ih
      simp only [List.lookup, hbeq] at h
      exact h

theorem setProc_lookup (st : RegState) (nm : Str) (d : List (Str × RegEntry))
    (h : (st.procedures.lookup nm).isSome = true) :
    (setProc st nm d).procedures.lookup nm = some d :=
  lookup_map_replace st.procedures nm d h

end ProcReg

/-- **C9**: `register_procedure` inserts the hyphenated procedure name
into the module-level registry before validating the arguments,
return-values and auxiliary-arguments lists: whatever the validation
outcome, the name ends up registered; when validation of the arguments
list raises, the call re-raises that error and the registry keeps the
name with only the `procedure` and `procedure_type` keys set (incomplete
data); and any call for an already-registered name raises `ValueError`
stating the procedure is already registered, leaving the state
untouched. -/
theorem claim_C9_register_inserts_before_validation :
    (∀ (st : ProcReg.RegState) (a : ProcReg.RegArgs),
      st.procedures.lookup (PyStr.underscoreToHyphen a.funcName) = none →
      (((ProcReg.register_procedure st a).1).procedures.lookup
        (PyStr.underscoreToHyphen a.funcName)).isSome = true) ∧
    (∀ (st : ProcReg.RegState) (a : ProcReg.RegArgs) (e : ProcReg.RegError),
      st.procedures.lookup (PyStr.underscoreToHyphen a.funcName) = none →
      (ProcReg.parseAndCheckParameters st.pluginProps a.arguments).2 =
        Except.error e →
      (ProcReg.register_procedure st a).2 = Except.error e ∧
      ((ProcReg.register_procedure st a).1).procedures.lookup
          (PyStr.underscoreToHyphen a.funcName) =
        some [("procedure".data, ProcReg.RegEntry.opaqueE a.funcName),
              ("procedure_type".data, ProcReg.RegEntry.opaqueE "procedure_type".data)]) ∧
    (∀ (st : ProcReg.RegState) (a : ProcReg.RegArgs),
      (st.procedures.lookup (PyStr.underscoreToHyphen a.funcName)).isSome = true →
      ProcReg.register_procedure st a =
        (st, Except.error ProcReg.RegError.valueErrorAlreadyRegistered)) := by
  refine ⟨?_, ?_, ?_⟩
  · intro st a h
    rw [ProcReg.register_procedure, if_neg (by simp [h])]
    have hbase : ((st.procedures ++
        [(PyStr.underscoreToHyphen a.funcName, [])]).lookup
        (PyStr.underscoreToHyphen a.funcName)).isSome = true := by
      rw [ProcReg.lookup_append_right _ _ _ h]
      simp [List.lookup]
    simp only []
    split
    · rw [ProcReg.setProc_lookup _ _ _ hbase]; simp
    · split
      · rw [ProcReg.setProc_lookup _ _ _ hbase]; simp
      · split
        · rw [ProcReg.setProc_lookup _ _ _ hbase]; simp
        · rw [ProcReg.setProc_lookup _ _ _ hbase]; simp
  · intro st a e h hp
    rw [ProcReg.register_procedure, if_neg (by simp [h])]
    have hbase : ((st.procedures ++
        [(PyStr.underscoreToHyphen a.funcName, [])]).lookup
        (PyStr.underscoreToHyphen a.funcName)).isSome = true := by
      rw [ProcReg.lookup_append_right _ _ _ h]
      simp [List.lookup]
    simp only []
    rw [hp]
    simp only []
    refine ⟨trivial, ?_⟩
    rw [ProcReg.setProc_lookup _ _ _ hbase]
    simp [ProcReg.setEntry]
  · intro st a h
    rw [ProcReg.register_procedure, if_pos h]

/-- Witness for C9: registering `my_plugin` with a string as `arguments`
raises `TypeError` yet registers the name with incomplete data, and a
second registration raises `ValueError`. -/
theorem claim_C9_witness :
    ((((ProcReg.register_procedure ⟨[], []⟩
        ⟨"my_plugin".data, ProcReg.ParamsArg.strA "bad".data,
          ProcReg.ParamsArg.noneA, ProcReg.ParamsArg.noneA⟩).1).procedures.lookup
        (PyStr.underscoreToHyphen "my_plugin".data)).isSome = true) ∧
    ((ProcReg.register_procedure ⟨[], []⟩
        ⟨"my_plugin".data, ProcReg.ParamsArg.strA "bad".data,
          ProcReg.ParamsArg.noneA, ProcReg.ParamsArg.noneA⟩).2 =
        Except.error ProcReg.RegError.typeErrorNotIterable ∧
      ((ProcReg.register_procedure ⟨[], []⟩
        ⟨"my_plugin".data, ProcReg.ParamsArg.strA "bad".data,
          ProcReg.ParamsArg.noneA, ProcReg.ParamsArg.noneA⟩).1).procedures.lookup
          (PyStr.underscoreToHyphen "my_plugin".data) =
        some [("procedure".data, ProcReg.RegEntry.opaqueE "my_plugin".data),
              ("procedure_type".data,
                ProcReg.RegEntry.opaqueE "procedure_type".data)]) ∧
    (ProcReg.register_procedure
        ⟨[("my-plugin".data,
          [("procedure".data, ProcReg.RegEntry.opaqueE "my_plugin".data),
           ("procedure_type".data,
             ProcReg.RegEntry.opaqueE "procedure_type".data)])], []⟩
        ⟨"my_plugin".data, ProcReg.ParamsArg.strA "bad".data,
          ProcReg.ParamsArg.noneA, ProcReg.ParamsArg.noneA⟩ =
      (⟨[("my-plugin".data,
          [("procedure".data, ProcReg.RegEntry.opaqueE "my_plugin".data),
           ("procedure_type".data,
             ProcReg.RegEntry.opaqueE "procedure_type".data)])], []⟩,
        Except.error ProcReg.RegError.valueErrorAlreadyRegistered)) :=
  ⟨claim_C9_register_inserts_before_validation.1 ⟨[], []⟩
      ⟨"my_plugin".data, ProcReg.ParamsArg.strA "bad".data,
        ProcReg.ParamsArg.noneA, ProcReg.ParamsArg.noneA⟩ rfl,
   claim_C9_register_inserts_before_validation.2.1 ⟨[], []⟩
      ⟨"my_plugin".data, ProcReg.ParamsArg.strA "bad".data,
        ProcReg.ParamsArg.noneA, ProcReg.ParamsArg.noneA⟩
      ProcReg.RegError.typeErrorNotIterable rfl rfl,
   claim_C9_register_inserts_before_validation.2.2
      ⟨[("my-plugin".data,
        [("procedure".data, ProcReg.RegEntry.opaqueE "my_plugin".data),
         ("procedure_type".data,
           ProcReg.RegEntry.opaqueE "procedure_type".data)])], []⟩
      ⟨"my_plugin".data, ProcReg.ParamsArg.strA "bad".data,
        ProcReg.ParamsArg.noneA, ProcReg.ParamsArg.noneA⟩ rfl⟩

namespace StubGen

open PyStr PyTextWrap

/-- `type.__module__` and `type.__qualname__` of a Python type object. -/
structure PyTypeInfo where
  module : Str
  qualname : Str
  deriving DecidableEq, Repr

/-- An introspected `GType`: its `name` (possibly empty), its `pytype`
(possibly `None`), and its parent type's name (for the `Gimp.Resource`
check). -/
structure GTypeInfo where
  nm : Str
  pytype : Option PyTypeInfo
  parentName : Str
  deriving DecidableEq, Repr

/-- Which attributes `getattr(Gimp, ...)` and `getattr(Gegl, ...)`
resolve in the live modules. -/
structure AttrEnv where
  gimpAttrs : List Str
  geglAttrs : List Str

/-- The number type of a parameter's `minimum`/`maximum`. -/
inductive GNum where
  | nInt (n : Int)
  | nFloat (r : Str)
  deriving DecidableEq, Repr

/-- A runtime default value of a parameter. Floats are carried by their
`repr`; `vEnum` holds a `GObject.GEnum` (an `int` subclass in
PyGObject). -/
inductive GVal where
  | vNone
  | vInt (n : Int)
  | vBool (b : Bool)
  | vFloat (r : Str)
  | vStr (s : Str)
  | vBytes (s : Str)
  | vEnum (e : EnumVal)
  | vObject (tag : Str)
  deriving DecidableEq, Repr

/-- The outcomes of `Gimp.param_spec_*_none_allowed` /
`param_spec_color_has_alpha` for a parameter, as introspected. -/
structure NoneFlags where
  fileNoneAllowed : Bool
  imageNoneAllowed : Bool
  itemNoneAllowed : Bool
  drawableFilterNoneAllowed : Bool
  displayNoneAllowed : Bool
  colorHasAlpha : Bool
  resourceNoneAllowed : Bool
  deriving DecidableEq, Repr

/-- `Gimp.param_spec_file_get_action(...)`. -/
inductive FileAction where
  | openFile | saveFile | selectFolder | createFolder | otherAction
  deriving DecidableEq, Repr

/-- An introspected `GParamSpec` of a procedure argument or return value,
with everything `stubgen.py` reads from it. `minMax` is `some` exactly
when the param spec `hasattr` both `minimum` and `maximum`. -/
structure ParamSpec where
  nm : Str
  blurb : Str
  valueType : GTypeInfo
  isGeglParamEnum : Bool
  defaultValue : GVal
  coreObjectArrayElemType : GTypeInfo
  noneFlags : NoneFlags
  isParamFile : Bool
  fileAction : FileAction
  unitPercentAllowed : Bool
  unitPixelAllowed : Bool
  minMax : Option (GNum × GNum)
  isParamChoice : Bool
  choiceNicks : List Str
  deriving DecidableEq, Repr

/-- `_GTYPES_TO_PYTHON_TYPES` from `stubgen.py`. -/
def GTYPES_TO_PYTHON_TYPES : List (Str × Str) :=
  [("gint".data, "int".data),
   ("guint".data, "int".data),
   ("gboolean".data, "bool".data),
   ("gdouble".data, "float".data),
   ("gchararray".data, "str".data),
   ("GBytes".data, "GLib.Bytes".data),
   ("GFile".data, "Gio.File".data),
   ("GParam".data, "GObject.ParamSpec".data),
   ("GStrv".data, "list[str]".data)]

/-- `_get_full_type_name` from `stubgen.py`. -/
def getFullTypeName (t : PyTypeInfo) : Str :=
  if t.module = "builtins".data then t.qualname
  else
    (if ("gi.repository.".data).isPrefixOf t.module then t.module.drop 14
     else t.module) ++ '.' :: t.qualname

/-- `_get_type_hint_name_from_gtype` from `stubgen.py`. -/
def getTypeHintNameFromGtype (env : AttrEnv) (vt : GTypeInfo)
    (defaultType : Str) : Str :=
  if ("Gimp".data).isPrefixOf vt.nm then
    if env.gimpAttrs.contains (vt.nm.drop 4) then "Gimp.".data ++ vt.nm.drop 4
    else defaultType
  else if ("Gegl".data).isPrefixOf vt.nm then
    if env.geglAttrs.contains (vt.nm.drop 4) then "Gegl.".data ++ vt.nm.drop 4
    else defaultType
  else
    match GTYPES_TO_PYTHON_TYPES.lookup vt.nm with
    | some t => t
    | none =>
      match vt.pytype with
      | some pt => getFullTypeName pt
      | none => defaultType

/-- `_get_type_hint_name` from `stubgen.py`. `param.value_type` is always
a `GType` object in PyGObject, so the `value_type is None` guard of the
source is defensive dead code; the `not value_type.name` disjunct is an
empty type name here. -/
def getTypeHintName (env : AttrEnv) (p : ParamSpec) (defaultType : Str) : Str :=
  if p.valueType.nm = [] then defaultType
  else if p.isGeglParamEnum then "str".data
  else if p.valueType.nm = "GimpCoreObjectArray".data then
    "list[".data ++ getTypeHintNameFromGtype env p.coreObjectArrayElemType defaultType
      ++ "]".data
  else getTypeHintNameFromGtype env p.valueType defaultType

/-- `_can_param_be_none` from `stubgen.py`: the runtime `GType` equality
tests are modelled by type-name equality (`Gio.File.__gtype__` is named
`GFile`, `Gimp.Image.__gtype__` is `GimpImage`, `Gegl.Color.__gtype__` is
`GeglColor`, ...), `gtype.parent == Gimp.Resource.__gtype__` by the
parent name `GimpResource`, and the `Gimp.param_spec_*` queries by the
introspected flags. -/
def canParamBeNone (p : ParamSpec) : Bool :=
  if p.valueType.nm = "GFile".data then p.noneFlags.fileNoneAllowed
  else if p.valueType.nm = "GimpImage".data then p.noneFlags.imageNoneAllowed
  else if p.valueType.nm ∈ ["GimpItem".data, "GimpDrawable".data,
      "GimpLayer".data, "GimpGroupLayer".data, "GimpTextLayer".data,
      "GimpChannel".data, "GimpLayerMask".data, "GimpSelection".data,
      "GimpPath".data] then
    p.noneFlags.itemNoneAllowed
  else if p.valueType.nm = "GimpDrawableFilter".data then
    p.noneFlags.drawableFilterNoneAllowed
  else if p.valueType.nm = "GimpDisplay".data then p.noneFlags.displayNoneAllowed
  else if p.valueType.nm = "GeglColor".data then p.noneFlags.colorHasAlpha
  else if p.valueType.parentName = "GimpResource".data then
    p.noneFlags.resourceNoneAllowed
  else false

/-- `_get_proc_argument_type_hint` from `stubgen.py`; the annotation node
is built by `ast.parse` of this text, which we record directly. -/
def getProcArgumentTypeHint (env : AttrEnv) (p : ParamSpec) : Str :=
  if canParamBeNone p then
    "Optional[".data ++ getTypeHintName env p "GObject.Value".data ++ "]".data
  else getTypeHintName env p "GObject.Value".data

/-- `_get_pdb_return_values_type_hint` from `stubgen.py`: `None` for no
return values, the single hint, or `tuple[...]`. -/
def getPdbReturnValuesTypeHint (env : AttrEnv) (retvals : List ParamSpec) :
    Option Str :=
  match retvals.map (fun rv => getTypeHintName env rv "Any".data) with
  | [] => none
  | [t] => some t
  | ts => some ("tuple[".data ++ joinCommaSpace ts ++ "]".data)

end StubGen

namespace StubGen

open PyStr

theorem lookupMemKeys (l : List (Str × Str)) (k : Str) (v : Str)
    (h : l.lookup k = some v) : k ∈ l.map Prod.fst := by
  induction l with
  | nil => simp [List.lookup] at h
  | cons kv rest ih =>
    rcases kv with ⟨k1, v1⟩
    simp only [List.lookup] at h
    cases hbeq : k == k1 with
    | true =>
      have : k = k1 := eq_of_beq hbeq
      simp [this]
    | false =>
      rw [hbeq] at h
      exact List.mem_cons_of_mem _ (ih h)

end StubGen

/-- **C6**: the type hint written into the stub follows the type-mapping
table and the fixed rules: a basic GType listed in
`_GTYPES_TO_PYTHON_TYPES` maps to the listed Python type; a GEGL enum
parameter maps to `str`; a `GimpCoreObjectArray` parameter maps to
`list[ElementType]`; a parameter that may be `None` has its hint wrapped
in `Optional[...]`; and a type that cannot be resolved (here: a
`Gimp`-prefixed type name whose attribute is absent from the live `Gimp`
module) falls back to `GObject.Value` for arguments and `Any` for return
values. -/
theorem claim_C6_type_hints :
    (∀ (env : StubGen.AttrEnv) (p : StubGen.ParamSpec) (defaultType py : PyStr.Str),
      p.isGeglParamEnum = false →
      StubGen.GTYPES_TO_PYTHON_TYPES.lookup p.valueType.nm = some py →
      StubGen.getTypeHintName env p defaultType = py) ∧
    (∀ (env : StubGen.AttrEnv) (p : StubGen.ParamSpec) (defaultType : PyStr.Str),
      p.isGeglParamEnum = true → p.valueType.nm ≠ [] →
      StubGen.getTypeHintName env p defaultType = "str".data) ∧
    (∀ (env : StubGen.AttrEnv) (p : StubGen.ParamSpec) (defaultType : PyStr.Str),
      p.isGeglParamEnum = false →
      p.valueType.nm = "GimpCoreObjectArray".data →
      StubGen.getTypeHintName env p defaultType =
        "list[".data ++
          StubGen.getTypeHintNameFromGtype env p.coreObjectArrayElemType defaultType
          ++ "]".data) ∧
    (∀ (env : StubGen.AttrEnv) (p : StubGen.ParamSpec),
      StubGen.canParamBeNone p = true →
      StubGen.getProcArgumentTypeHint env p =
        "Optional[".data ++ StubGen.getTypeHintName env p "GObject.Value".data
          ++ "]".data) ∧
    (∀ (env : StubGen.AttrEnv) (p : StubGen.ParamSpec),
      ("Gimp".data).isPrefixOf p.valueType.nm = true →
      p.valueType.nm ≠ "GimpCoreObjectArray".data →
      env.gimpAttrs.contains (p.valueType.nm.drop 4) = false →
      p.isGeglParamEnum = false →
      StubGen.canParamBeNone p = false →
      StubGen.getProcArgumentTypeHint env p = "GObject.Value".data) ∧
    (∀ (env : StubGen.AttrEnv) (p : StubGen.ParamSpec),
      ("Gimp".data).isPrefixOf p.valueType.nm = true →
      p.valueType.nm ≠ "GimpCoreObjectArray".data →
      env.gimpAttrs.contains (p.valueType.nm.drop 4) = false →
      p.isGeglParamEnum = false →
      StubGen.getPdbReturnValuesTypeHint env [p] = some "Any".data) := by
  have hGimpNonempty : ∀ nm : PyStr.Str, ("Gimp".data).isPrefixOf nm = true → nm ≠ [] := by
    intro nm hpre hnil
    subst hnil
    simp [List.isPrefixOf] at hpre
  have hhint : ∀ (env : StubGen.AttrEnv) (p : StubGen.ParamSpec) (d : PyStr.Str),
      ("Gimp".data).isPrefixOf p.valueType.nm = true →
      p.valueType.nm ≠ "GimpCoreObjectArray".data →
      env.gimpAttrs.contains (p.valueType.nm.drop 4) = false →
      p.isGeglParamEnum = false →
      StubGen.getTypeHintName env p d = d := by
    intro env p d hpre hcore hattr hg
    rw [StubGen.getTypeHintName, if_neg (by simpa using hGimpNonempty _ hpre),
      if_neg (by simp [hg]), if_neg (by simpa using hcore),
      StubGen.getTypeHintNameFromGtype, if_pos hpre, if_neg (by simpa using hattr)]
  refine ⟨?_, ?_, ?_, ?_, ?_, ?_⟩
  · intro env p d py hg hlk
    have hmem := StubGen.lookupMemKeys _ _ _ hlk
    have hprops : ∀ k ∈ StubGen.GTYPES_TO_PYTHON_TYPES.map Prod.fst,
        ("Gimp".data).isPrefixOf k = false ∧ ("Gegl".data).isPrefixOf k = false ∧
        k ≠ ([] : PyStr.Str) ∧ k ≠ "GimpCoreObjectArray".data := by decide
    obtain ⟨h1, h2, h3, h4⟩ := hprops _ hmem
    rw [StubGen.getTypeHintName, if_neg (by simpa using h3), if_neg (by simp [hg]),
      if_neg (by simpa using h4), StubGen.getTypeHintNameFromGtype,
      if_neg (by simp [h1]), if_neg (by simp [h2]), hlk]
  · intro env p d hg hne
    rw [StubGen.getTypeHintName, if_neg (by simpa using hne), if_pos hg]
  · intro env p d hg hcore
    rw [StubGen.getTypeHintName,
      if_neg (by rw [hcore]; decide), if_neg (by simp [hg]), if_pos hcore]
  · intro env p h
    rw [StubGen.getProcArgumentTypeHint, if_pos h]
  · intro env p hpre hcore hattr hg hnone
    rw [StubGen.getProcArgumentTypeHint, if_neg (by simp [hnone]),
      hhint env p _ hpre hcore hattr hg]
  · intro env p hpre hcore hattr hg
    rw [StubGen.getPdbReturnValuesTypeHint]
    simp only [List.map_cons, List.map_nil]
    rw [hhint env p _ hpre hcore hattr hg]

namespace StubGen

/-- A sample introspected parameter used in concrete checks. -/
def sampleParam (typeName : PyStr.Str) (geglEnum : Bool)
    (elemTypeName : PyStr.Str) (imageNoneAllowed : Bool) : ParamSpec :=
  { nm := "param".data
    blurb := []
    valueType := ⟨typeName, none, []⟩
    isGeglParamEnum := geglEnum
    defaultValue := .vNone
    coreObjectArrayElemType := ⟨elemTypeName, none, []⟩
    noneFlags := ⟨false, imageNoneAllowed, false, false, false, false, false⟩
    isParamFile := false
    fileAction := .otherAction
    unitPercentAllowed := true
    unitPixelAllowed := true
    minMax := none
    isParamChoice := false
    choiceNicks := [] }

end StubGen

/-- Witness for C6 at concrete parameters: a `gint` argument, a GEGL enum
argument, a `GimpCoreObjectArray` of layers, an image that may be `None`,
and an unresolvable `GimpFoo` both as argument and as return value. -/
theorem claim_C6_witness :
    StubGen.getTypeHintName ⟨[], []⟩ (StubGen.sampleParam "gint".data false [] false)
        "GObject.Value".data = "int".data ∧
    StubGen.getTypeHintName ⟨[], []⟩
        (StubGen.sampleParam "GeglColorEnum".data true [] false)
        "GObject.Value".data = "str".data ∧
    StubGen.getTypeHintName ⟨["Layer".data], []⟩
        (StubGen.sampleParam "GimpCoreObjectArray".data false "GimpLayer".data false)
        "GObject.Value".data =
      "list[".data ++
        StubGen.getTypeHintNameFromGtype ⟨["Layer".data], []⟩
          ⟨"GimpLayer".data, none, []⟩ "GObject.Value".data ++ "]".data ∧
    StubGen.getProcArgumentTypeHint ⟨[], []⟩
        (StubGen.sampleParam "GimpImage".data false [] true) =
      "Optional[".data ++
        StubGen.getTypeHintName ⟨[], []⟩
          (StubGen.sampleParam "GimpImage".data false [] true)
          "GObject.Value".data ++ "]".data ∧
    StubGen.getProcArgumentTypeHint ⟨[], []⟩
        (StubGen.sampleParam "GimpFoo".data false [] false) = "GObject.Value".data ∧
    StubGen.getPdbReturnValuesTypeHint ⟨[], []⟩
        [StubGen.sampleParam "GimpFoo".data false [] false] = some "Any".data :=
  ⟨claim_C6_type_hints.1 ⟨[], []⟩ (StubGen.sampleParam "gint".data false [] false)
      "GObject.Value".data "int".data rfl (by decide),
   claim_C6_type_hints.2.1 ⟨[], []⟩
      (StubGen.sampleParam "GeglColorEnum".data true [] false)
      "GObject.Value".data rfl (by decide),
   claim_C6_type_hints.2.2.1 ⟨["Layer".data], []⟩
      (StubGen.sampleParam "GimpCoreObjectArray".data false "GimpLayer".data false)
      "GObject.Value".data rfl rfl,
   claim_C6_type_hints.2.2.2.1 ⟨[], []⟩
      (StubGen.sampleParam "GimpImage".data false [] true) (by decide),
   claim_C6_type_hints.2.2.2.2.1 ⟨[], []⟩
      (StubGen.sampleParam "GimpFoo".data false [] false)
      (by decide) (by decide) rfl rfl (by decide),
   claim_C6_type_hints.2.2.2.2.2 ⟨[], []⟩
      (StubGen.sampleParam "GimpFoo".data false [] false)
      (by decide) (by decide) rfl rfl⟩

namespace StubGen

open PyStr PyTextWrap

/-- A Python value as returned by `_get_param_default_value`: one of the
basic types, or a `GEnum` instance (which passes the `isinstance(...,
int)` check because PyGObject's `GEnum` subclasses `int`). -/
inductive PyVal where
  | pInt (n : Int)
  | pBool (b : Bool)
  | pFloat (r : Str)
  | pStr (s : Str)
  | pBytes (s : Str)
  | pEnum (e : EnumVal)
  deriving DecidableEq, Repr

/-- `_get_param_default_value` from `stubgen.py`: for a GEGL enum
parameter the default's `value_nick`; otherwise the default itself when
it is an `int` (including `GEnum` instances), `float`, `bool`, `str` or
`bytes`; otherwise `None`. -/
def getParamDefaultValue (p : ParamSpec) : Option PyVal :=
  if p.isGeglParamEnum then
    match p.defaultValue with
    | .vEnum e => some (.pStr e.valueNick)
    | _ => none
  else
    match p.defaultValue with
    | .vInt n => some (.pInt n)
    | .vBool b => some (.pBool b)
    | .vFloat r => some (.pFloat r)
    | .vStr s => some (.pStr s)
    | .vBytes s => some (.pBytes s)
    | .vEnum e => some (.pEnum e)
    | _ => none

/-- `str()` of a `GEnum` value as PyGObject renders it. -/
def enumRepr (e : EnumVal) : Str :=
  "<enum ".data ++ e.valueName ++ " of type ".data ++
    (if ("gi.repository.".data).isPrefixOf e.typeModule then e.typeModule.drop 14
     else e.typeModule) ++ '.' :: e.typeQualname ++ ">".data

/-- `f'{v}'` for the default-value branch that quotes neither strings nor
bytes. -/
def fmtPyValPlain : PyVal → Str
  | .pInt n => intToStr n
  | .pBool b => if b then "True".data else "False".data
  | .pFloat r => r
  | .pStr s => s
  | .pBytes s => s
  | .pEnum e => enumRepr e

/-- `f'{v}'` of a parameter's `minimum`/`maximum`. -/
def fmtGNum : GNum → Str
  | .nInt n => intToStr n
  | .nFloat r => r

/-- `_is_core_object_array`: `param.value_type` always has a `name`
attribute, so only the name comparison remains. -/
def isCoreObjectArray (p : ParamSpec) : Bool :=
  p.valueType.nm = "GimpCoreObjectArray".data

def giModuleNames : List Str :=
  ["Gimp".data, "Gegl".data, "GimpUi".data, "GObject".data, "GLib".data,
   "Gio".data]

/-- `_get_core_object_array_element_type` from `stubgen.py`: the first
module name in the fixed list that prefixes the element GType's name is
split off with a dot. -/
def getCoreObjectArrayElementType (p : ParamSpec) : Str :=
  match giModuleNames.find? (fun m => m.isPrefixOf p.coreObjectArrayElemType.nm) with
  | some m => m ++ '.' :: p.coreObjectArrayElemType.nm.drop m.length
  | none => p.coreObjectArrayElemType.nm

/-- `_get_file_param_info` from `stubgen.py`. -/
def getFileParamInfo (p : ParamSpec) : Str :=
  match p.fileAction with
  | .openFile => "file to open".data
  | .saveFile => "file to save".data
  | .selectFolder => "folder to select".data
  | .createFolder => "folder to create".data
  | .otherAction => []

/-- `_is_gimp_unit`: `param.value_type == Gimp.Unit.__gtype__`. -/
def isGimpUnit (p : ParamSpec) : Bool := p.valueType.nm = "GimpUnit".data

/-- `_get_gimp_unit_limitations_str` from `stubgen.py`. -/
def getGimpUnitLimitationsStr (p : ParamSpec) : Str :=
  joinCommaSpace
    ((if p.unitPercentAllowed then [] else ["percent not allowed".data]) ++
     (if p.unitPixelAllowed then [] else ["pixels not allowed".data]))

/-- `_is_param_numeric`: `hasattr(param, 'minimum') and hasattr(param,
'maximum')`. -/
def isParamNumeric (p : ParamSpec) : Bool := p.minMax.isSome

def GLIB_MININT : Int := -(2 ^ 31)
def GLIB_MAXINT : Int := 2 ^ 31 - 1
def GLIB_MAXUINT : Int := 2 ^ 32 - 1
def GLIB_MAXDOUBLE_REPR : PyStr.Str := "1.7976931348623157e+308".data

/-- `_get_minimum_maximum_value` from `stubgen.py`: the GType equality
tests with `GObject.TYPE_INT`/`TYPE_UINT`/`TYPE_DOUBLE` are modelled by
the names `gint`/`guint`/`gdouble`, and the float comparisons with
`±GLib.MAXDOUBLE` by their `repr`. -/
def getMinimumMaximumValue (p : ParamSpec) : Option GNum × Option GNum :=
  match p.minMax with
  | none => (none, none)
  | some (mn, mx) =>
    ((if (p.valueType.nm = "gint".data ∧ mn = .nInt GLIB_MININT) ∨
        (p.valueType.nm = "gdouble".data ∧ mn = .nFloat ('-' :: GLIB_MAXDOUBLE_REPR))
      then none else some mn),
     (if (p.valueType.nm = "gint".data ∧ mx = .nInt GLIB_MAXINT) ∨
        (p.valueType.nm = "guint".data ∧ mx = .nInt GLIB_MAXUINT) ∨
        (p.valueType.nm = "gdouble".data ∧ mx = .nFloat GLIB_MAXDOUBLE_REPR)
      then none else some mx))

/-- `_get_gimp_choice_values`: the nicks of
`Gimp.param_spec_choice_get_choice(param).list_nicks()`, introspected. -/
def getGimpChoiceValues (p : ParamSpec) : List Str := p.choiceNicks

/-- `_get_gimp_choice_values_from_gegl_enum`: the nicks of
`type(param.get_default_value()).__enum_values__` (a GEGL enum
parameter's default is always an enum value). -/
def getGimpChoiceValuesFromGeglEnum (p : ParamSpec) : List Str :=
  match p.defaultValue with
  | .vEnum e => e.enumTypeNicks
  | _ => []

/-- `_format_gimp_choice_values` from `stubgen.py`. -/
def formatGimpChoiceValues (vals : List Str) : Str :=
  joinCommaSpace (vals.map (fun v => '\'' :: v ++ ['\'']))

/-- `len('* ')`. -/
def paramPfxLen : Nat := 2

/-- The loop body of `_add_proc_params_or_retvals_to_docstring` for one
parameter: name, array/file/unit info, default (enum names win over
plain formatting), `can be None`, the wrapped description line and the
wrapped additional min/max or allowed-values line. -/
def paramDocEntry (p : ParamSpec) : Str :=
  let name := hyphenToUnderscore p.nm
  let description :=
    if p.blurb ≠ [] then
      (if endsWithChar p.blurb '.' then p.blurb else p.blurb ++ ['.'])
    else []
  let objectTypeStr :=
    if isCoreObjectArray p then
      " (array of ".data ++ getCoreObjectArrayElementType p ++ " elements)".data
    else []
  let fileInfoStr :=
    if p.isParamFile then " (".data ++ getFileParamInfo p ++ ")".data else []
  let gimpUnitLimitationsStr :=
    if isGimpUnit p then " (".data ++ getGimpUnitLimitationsStr p ++ ")".data
    else []
  let dv0 := getParamDefaultValue p
  let enumS : Option Str :=
    match p.defaultValue with
    | .vEnum e => if ¬ p.isGeglParamEnum then getEnumValueAsString e else none
    | _ => none
  let defaultValueStr : Str :=
    match enumS with
    | some s => " (default: ".data ++ s ++ ")".data
    | none =>
      match dv0 with
      | none => []
      | some (.pStr s) => " (default: '".data ++ s ++ "')".data
      | some (.pBytes s) => " (default: b'".data ++ s ++ "')".data
      | some v => " (default: ".data ++ fmtPyValPlain v ++ ")".data
  let canBeNoneStr := if canParamBeNone p then " (can be None)".data else []
  let paramBaseInfo := "* ".data ++ name ++ objectTypeStr ++ fileInfoStr ++
    gimpUnitLimitationsStr ++ defaultValueStr ++ canBeNoneStr
  let paramStr :=
    if description ≠ [] then paramBaseInfo ++ " - ".data ++ description
    else paramBaseInfo
  let paramStr := fill (DOCSTRING_LINE_LENGTH - BODY_INDENT.length - paramPfxLen)
    [] (BODY_INDENT ++ "  ".data) paramStr
  let paramStr := nlIndent2 ++ paramStr
  let additional : Option Str :=
    if isParamNumeric p then
      match getMinimumMaximumValue p with
      | (some mn, some mx) =>
        some ("Minimum value: ".data ++ fmtGNum mn ++ ", maximum value: ".data
          ++ fmtGNum mx)
      | (some mn, none) => some ("Minimum value: ".data ++ fmtGNum mn)
      | (none, some mx) => some ("Maximum value: ".data ++ fmtGNum mx)
      | (none, none) => none
    else if p.isParamChoice then
      some ("Allowed values: ".data ++ formatGimpChoiceValues (getGimpChoiceValues p))
    else if p.isGeglParamEnum then
      some ("Allowed values: ".data ++
        formatGimpChoiceValues (getGimpChoiceValuesFromGeglEnum p))
    else none
  match additional with
  | none => paramStr
  | some ad =>
    let ad := fill (DOCSTRING_LINE_LENGTH - BODY_INDENT.length - paramPfxLen)
      [] (BODY_INDENT ++ "  ".data) ad
    paramStr ++ ('\n' :: BODY_INDENT ++ "  ".data) ++
      ('\n' :: BODY_INDENT ++ "  ".data) ++ ad

/-- `_add_proc_params_or_retvals_to_docstring` from `stubgen.py` (its
`param_type` argument is unused in the source and omitted; the
`get_params_func` projection is applied by the caller). -/
def addProcParamsOrRetvalsToDocstring (params : List ParamSpec)
    (docstring : Str) (title : Str) : Str :=
  if params = [] then docstring
  else
    (if docstring ≠ [] then docstring ++ nlIndent2 else docstring) ++
      params.foldl (fun acc p => acc ++ paramDocEntry p) title

/-- `_add_field_to_docstring` from `stubgen.py`: returns the new
docstring and `bool(field)`. -/
def addFieldToDocstring (field docstring titleText : Str)
    (addExtraNewline : Bool) : Str × Bool :=
  if field ≠ [] then
    ((if docstring ≠ [] then
        docstring ++ (if addExtraNewline then nlIndent2 else nlIndent)
      else docstring) ++ titleText ++ ": ".data ++ field, true)
  else (docstring, false)

/-- `_add_menu_paths_to_docstring` from `stubgen.py`. -/
def addMenuPathsToDocstring (menuPaths : List Str) (docstring : Str)
    (addExtraNewline : Bool) : Str :=
  if menuPaths ≠ [] then
    (if docstring ≠ [] then
        docstring ++ (if addExtraNewline then nlIndent2 else nlIndent)
      else docstring) ++
      (if (menuPaths.map rstripSlash).length > 1 then "Menu paths".data
       else "Menu path".data) ++ ": ".data ++
      joinCommaSpace (menuPaths.map rstripSlash)
  else docstring

end StubGen

namespace StubGen

open PyStr PyTextWrap

/-- Modelled from the spec: the procedure metadata exposed by
`GimpPDBProcedure`/`GeglProcedure` of `wrappers/pypdb.py`, which is not
under `src/` — the spec describes it as the introspected names,
parameters, defaults and documentation of a live procedure
(`arguments`, `return_values`, `blurb`, `help`, `menu_label`,
`menu_paths`, and the image types of `proc.get_image_types()`). -/
structure ProcInfo where
  arguments : List ParamSpec
  returnValues : List ParamSpec
  blurb : Str
  help : Str
  menuLabel : Str
  menuPaths : List Str
  imageTypes : Str

/-- Modelled from the spec: `pdb.canonical_name_to_python_name` lives in
the missing `wrappers/pypdb.py`; the spec says stubs name procedures by
Python identifiers, and the sibling generator `stubgen_pdb.py` defines
the same conversion as `_pythonize` — hyphens become underscores. -/
def canonicalToPython (s : Str) : Str := hyphenToUnderscore s

/-- `_create_pdb_procedure_node` from `stubgen.py`: parse
`def <name>(self):\n    ""\n    pass`. -/
def createPdbProcedureNode (procedureName : Str) : PyAst.PyStmt :=
  PyAst.PyStmt.funcDef (canonicalToPython procedureName)
    [⟨"self".data, none⟩] [] []
    [PyAst.PyStmt.exprStmt (PyAst.PyExpr.constE (PyAst.PyConst.strC [])),
     PyAst.PyStmt.passStmt] none

/-- The constant stored in an argument's `ast.Constant` default node. -/
def pyValToConst : Option PyVal → PyAst.PyConst
  | none => .noneC
  | some (.pInt n) => .intC n
  | some (.pBool b) => .boolC b
  | some (.pFloat r) => .floatC r
  | some (.pStr s) => .strC s
  | some (.pBytes s) => .bytesC s
  | some (.pEnum e) => .enumC e.valueName

/-- The default node for one argument: an `ast.Constant` holding
`_get_param_default_value(...)`, overridden by `ast.parse` of the
qualified enum name when the default is a non-GEGL `GEnum` and
`_get_enum_value_as_string` found a name. -/
def mkArgDefaultNode (p : ParamSpec) : PyAst.PyDefault :=
  let base := PyAst.PyDefault.constD (pyValToConst (getParamDefaultValue p))
  match p.defaultValue with
  | .vEnum e =>
    if ¬ p.isGeglParamEnum then
      match getEnumValueAsString e with
      | some s => PyAst.PyDefault.parsedD s
      | none => base
    else base
  | _ => base

/-- `_insert_gimp_pdb_procedure_arguments` from `stubgen.py`: iterate the
arguments in reverse, inserting each argument node at position 1 (after
`self`) and its default at position 0, then set the return annotation. -/
def insertGimpPdbProcedureArguments (env : AttrEnv) (node : PyAst.PyStmt)
    (proc : ProcInfo) : PyAst.PyStmt :=
  match node with
  | .funcDef nm args defaults decos body _ =>
    let ad := proc.arguments.reverse.foldl
      (fun (ad : List PyAst.PyArg × List PyAst.PyDefault) pa =>
        (ad.1.insertIdx 1
          ⟨canonicalToPython pa.nm, some (getProcArgumentTypeHint env pa)⟩,
         ad.2.insertIdx 0 (mkArgDefaultNode pa)))
      (args, defaults)
    .funcDef nm ad.1 ad.2 decos body
      (getPdbReturnValuesTypeHint env proc.returnValues)
  | s => s

/-- `_insert_gimp_pdb_procedure_docstring` from `stubgen.py` (the
docstring text; it is stored into `body[0].value.value`). -/
def insertGimpPdbProcedureDocstring (proc : ProcInfo) : Str :=
  let d := addProcBlurbToDocstring proc.blurb []
  let r1 := addFieldToDocstring proc.imageTypes d "Image types".data true
  let extra1 := !r1.2
  let r2 := addFieldToDocstring proc.menuLabel r1.1 "Menu label".data extra1
  let extra2 := extra1 && !r2.2
  let d := addMenuPathsToDocstring proc.menuPaths r2.1 extra2
  let d := addProcHelpToDocstring proc.help d
  let d := addProcParamsOrRetvalsToDocstring proc.arguments d "Parameters:".data
  let d := addProcParamsOrRetvalsToDocstring proc.returnValues d "Returns:".data
  d ++ nlIndent

/-- `procedure_node.body[0].value.value = proc_docstring`. -/
def setDocstring (node : PyAst.PyStmt) (s : Str) : PyAst.PyStmt :=
  match node with
  | .funcDef nm args defaults decos body returns =>
    .funcDef nm args defaults decos
      (match body with
       | .exprStmt (.constE (.strC _)) :: rest =>
         .exprStmt (.constE (.strC s)) :: rest
       | b => b) returns
  | s' => s'

/-- `_insert_gimp_pdb_procedure_node`: the function stub appended to the
`_PyPDB` class body for one PDB procedure. -/
def insertGimpPdbProcedureNode (env : AttrEnv) (procs : Str → ProcInfo)
    (procedureName : Str) : PyAst.PyStmt :=
  setDocstring
    (insertGimpPdbProcedureArguments env (createPdbProcedureNode procedureName)
      (procs procedureName))
    (insertGimpPdbProcedureDocstring (procs procedureName))

/-- `_insert_gegl_procedure_arguments`: same argument loop, but
`procedure_node.returns = None`. -/
def insertGeglProcedureArguments (env : AttrEnv) (node : PyAst.PyStmt)
    (proc : ProcInfo) : PyAst.PyStmt :=
  match node with
  | .funcDef nm args defaults decos body _ =>
    let ad := proc.arguments.reverse.foldl
      (fun (ad : List PyAst.PyArg × List PyAst.PyDefault) pa =>
        (ad.1.insertIdx 1
          ⟨canonicalToPython pa.nm, some (getProcArgumentTypeHint env pa)⟩,
         ad.2.insertIdx 0 (mkArgDefaultNode pa)))
      (args, defaults)
    .funcDef nm ad.1 ad.2 decos body none
  | s => s

/-- `_insert_gegl_procedure_docstring` from `stubgen.py`. -/
def insertGeglProcedureDocstring (proc : ProcInfo) : Str :=
  let d := proc.menuLabel ++ nlIndent2
  let d := addProcBlurbToDocstring proc.blurb d
  let d := addProcParamsOrRetvalsToDocstring proc.arguments d "Parameters:".data
  d ++ nlIndent

/-- `_insert_gegl_procedure_node`: the function stub appended to the
`_PyPDB` class body for one GEGL operation. -/
def insertGeglProcedureNode (env : AttrEnv) (procs : Str → ProcInfo)
    (procedureName : Str) : PyAst.PyStmt :=
  setDocstring
    (insertGeglProcedureArguments env (createPdbProcedureNode procedureName)
      (procs procedureName))
    (insertGeglProcedureDocstring (procs procedureName))

end StubGen

namespace StubGen

open PyStr

/-- `ast.unparse` of a constant (single-quoted strings, Python literals;
a `GEnum` stored directly in a `Constant` renders via its `repr`-ish
tag). -/
def unparseConst : PyAst.PyConst → Str
  | .noneC => "None".data
  | .boolC b => if b then "True".data else "False".data
  | .intC n => intToStr n
  | .floatC r => r
  | .strC s => '\'' :: s ++ ['\'']
  | .bytesC s => 'b' :: '\'' :: s ++ ['\'']
  | .enumC tag => tag

mutual
def unparseExpr : PyAst.PyExpr → Str
  | .nameE id => id
  | .attrE v a => unparseExpr v ++ '.' :: a
  | .subscriptE v i => unparseExpr v ++ '[' :: (unparseExpr i ++ "]".data)
  | .callE fn args => unparseExpr fn ++ '(' :: (unparseExprList args ++ ")".data)
  | .constE c => unparseConst c
  | .tupleE es => '(' :: (unparseExprList es ++ ")".data)

def unparseExprList : List PyAst.PyExpr → Str
  | [] => []
  | [e] => unparseExpr e
  | e :: rest => unparseExpr e ++ ", ".data ++ unparseExprList rest
end

def unparseDefault : PyAst.PyDefault → Str
  | .constD c => unparseConst c
  | .parsedD s => s

/-- Align a function's defaults with its trailing arguments, as the AST
does, and render `name: hint=default` items. -/
def alignDefaults (args : List PyAst.PyArg) (defaults : List PyAst.PyDefault) :
    List (PyAst.PyArg × Option PyAst.PyDefault) :=
  ((args.take (args.length - defaults.length)).map (fun a => (a, none))) ++
    ((args.drop (args.length - defaults.length)).zip (defaults.map some))

def unparseArg (ad : PyAst.PyArg × Option PyAst.PyDefault) : Str :=
  ad.1.nm ++
    (match ad.1.typeHint with | some t => ": ".data ++ t | none => []) ++
    (match ad.2 with | some dv => '=' :: unparseDefault dv | none => [])

def unparseArgList (args : List PyAst.PyArg)
    (defaults : List PyAst.PyDefault) : Str :=
  joinCommaSpace ((alignDefaults args defaults).map unparseArg)

def indentOf (lvl : Nat) : Str := List.replicate (4 * lvl) ' '

mutual
/-- A straightforward serializer standing for `ast.unparse` on the
statement fragment used here (blank-line and string-quoting subtleties of
CPython's unparser are not modelled; the serialization is a function of
the tree, which is what the claims need). -/
def unparseStmt (lvl : Nat) : PyAst.PyStmt → Str
  | .funcDef nm args defaults decos body returns =>
    (decos.map (fun d => indentOf lvl ++ '@' :: unparseExpr d ++ ['\n'])).flatten ++
      indentOf lvl ++ "def ".data ++ nm ++ '(' :: unparseArgList args defaults ++
      ")".data ++
      (match returns with | some r => " -> ".data ++ r | none => []) ++
      ":\n".data ++ unparseStmts (lvl + 1) body
  | .classDef nm body =>
    indentOf lvl ++ "class ".data ++ nm ++ ":\n".data ++
      unparseStmts (lvl + 1) body
  | .assign tgts v =>
    indentOf lvl ++ (tgts.map (fun t => unparseExpr t ++ " = ".data)).flatten ++
      unparseExpr v ++ ['\n']
  | .exprStmt e => indentOf lvl ++ unparseExpr e ++ ['\n']
  | .passStmt => indentOf lvl ++ "pass\n".data
  | .importS m => indentOf lvl ++ "import ".data ++ m ++ ['\n']
  | .importFromS m ns =>
    indentOf lvl ++ "from ".data ++ m ++ " import ".data ++
      joinCommaSpace ns ++ ['\n']
  | .returnS e =>
    indentOf lvl ++ "return".data ++
      (match e with | some ex => ' ' :: unparseExpr ex | none => []) ++ ['\n']

def unparseStmts (lvl : Nat) : List PyAst.PyStmt → Str
  | [] => []
  | s :: rest => unparseStmt lvl s ++ unparseStmts lvl rest
end

def unparseModule (m : List PyAst.PyStmt) : Str := unparseStmts 0 m

/-- A filesystem path as a list of components. -/
abbrev FsPath := List Str

/-- The file system visible to the generator. -/
structure FileSystem where
  dirs : List FsPath
  files : List (FsPath × Str)

/-- Write (or overwrite) one file. -/
def setFile (files : List (FsPath × Str)) (p : FsPath) (content : Str) :
    List (FsPath × Str) :=
  (p, content) :: files.filter (fun kv => !(kv.1 == p))

/-- `write_stub_file` from `stubgen.py`: `os.makedirs(dirpath,
exist_ok=True)` then write `pypdb.pyi` there with `ast.unparse`. -/
def writeStubFile (fs : FileSystem) (dirpath : FsPath)
    (root : List PyAst.PyStmt) : FileSystem :=
  { dirs := if dirpath ∈ fs.dirs then fs.dirs else dirpath :: fs.dirs
    files := setFile fs.files (dirpath ++ ["pypdb.pyi".data])
      (unparseModule root) }

/-- The environment of one stub-generation run: attribute resolution,
the wrappers directory, `ast.parse` as an oracle on the wrapper source,
and the introspected procedures (the listing functions come from the
missing `wrappers/pypdb.py`; modelled from the spec as opaque query
results). -/
structure StubGenEnv where
  attrs : AttrEnv
  wrappersDir : FsPath
  parseModule : Str → List PyAst.PyStmt
  pdbProcs : Str → ProcInfo
  geglProcs : Str → ProcInfo
  pdbProcNames : List Str
  geglOpNames : List Str

/-- `PYPDB_MODULE_FILEPATH`. -/
def pypdbModulePath (env : StubGenEnv) : FsPath :=
  env.wrappersDir ++ ["pypdb.py".data]

inductive StubGenError where
  | runtimeErrorModuleMissing
  | runtimeErrorPypdbClassMissing
  | attributeErrorInStrip
  deriving DecidableEq, Repr

def isImportNode : PyAst.PyStmt → Bool
  | .importS _ => true
  | .importFromS _ _ => true
  | _ => false

/-- The index computation of `_add_imports`: count import nodes,
breaking at the first non-import after an import was seen. -/
def lastConsecutiveImportIndexAux : List PyAst.PyStmt → Nat → Bool → Nat
  | [], idx, _ => idx
  | n :: rest, idx, enc =>
    if isImportNode n then lastConsecutiveImportIndexAux rest (idx + 1) true
    else if enc then idx
    else lastConsecutiveImportIndexAux rest idx enc

def lastConsecutiveImportIndex (body : List PyAst.PyStmt) : Nat :=
  lastConsecutiveImportIndexAux body 0 false

def newImportNodes : List PyAst.PyStmt :=
  [.importFromS "typing".data ["Any".data],
   .importFromS "gi.repository".data ["GLib".data],
   .importFromS "gi.repository".data ["Gio".data]]

/-- `_add_imports` from `stubgen.py`: insert the three new import nodes,
in reverse, at the computed index (the index is computed once, before
the insertions). -/
def addImports (m : List PyAst.PyStmt) : List PyAst.PyStmt :=
  newImportNodes.reverse.foldl
    (fun b n => b.insertIdx (lastConsecutiveImportIndex m) n) m

/-- `isinstance(child, ast.ClassDef) and child.name == '_PyPDB'`. -/
def isPypdbClassNode : PyAst.PyStmt → Bool
  | .classDef nm _ => nm = "_PyPDB".data
  | _ => false

/-- `_get_pypdb_class_node` from `stubgen.py`:
`next((child for child in root.body if isinstance(child, ast.ClassDef)
and child.name == '_PyPDB'), None)`. -/
def getPypdbClassNode (m : List PyAst.PyStmt) : Option PyAst.PyStmt :=
  m.find? isPypdbClassNode

/-- Appending to the class node retrieved by `_get_pypdb_class_node`
mutates the first top-level `_PyPDB` class in place. -/
def updatePypdbClass (m : List PyAst.PyStmt)
    (f : List PyAst.PyStmt → List PyAst.PyStmt) : List PyAst.PyStmt :=
  match m with
  | [] => []
  | s :: rest =>
    match s with
    | .classDef nm body =>
      if nm = "_PyPDB".data then .classDef nm (f body) :: rest
      else s :: updatePypdbClass rest f
    | _ => s :: updatePypdbClass rest f

/-- The two `for proc_name in sorted(...)` loops of `generate_pdb_stubs`:
append one stub to the `_PyPDB` class body per sorted PDB procedure name,
then one per sorted GEGL operation name. -/
def appendStubs (env : StubGenEnv) (root : List PyAst.PyStmt) :
    List PyAst.PyStmt :=
  updatePypdbClass root (fun body =>
    (pySorted env.geglOpNames).foldl
      (fun b nm => b ++ [insertGeglProcedureNode env.attrs env.geglProcs nm])
      ((pySorted env.pdbProcNames).foldl
        (fun b nm =>
          b ++ [insertGimpPdbProcedureNode env.attrs env.pdbProcs nm])
        body))

/-- `generate_pdb_stubs` from `stubgen.py`: check the wrapper module
exists, parse it, add imports, strip implementations, find the `_PyPDB`
class, append the procedure stubs, and write the stub file. -/
def generate_pdb_stubs (env : StubGenEnv) (fs : FileSystem)
    (outputDirpath : FsPath) : Except StubGenError FileSystem :=
  match fs.files.lookup (pypdbModulePath env) with
  | none => .error .runtimeErrorModuleMissing
  | some src =>
    match PyAst.removeImplementationOfFunctions
        (addImports (env.parseModule src)) with
    | .error _ => .error .attributeErrorInStrip
    | .ok root =>
      match getPypdbClassNode root with
      | none => .error .runtimeErrorPypdbClassMissing
      | some _ => .ok (writeStubFile fs outputDirpath (appendStubs env root))

end StubGen

namespace StubGen

open PyStr PyAst

theorem pySortedInsert_perm (x : Str) (l : List Str) :
    (pySortedInsert x l).Perm (x :: l) := by
  induction l with
  | nil => exact List.Perm.refl _
  | cons y ys ih =>
    simp only [pySortedInsert]
    cases h : strLe x y
    · simp only [Bool.false_eq_true, if_false]
      exact (ih.cons y).trans (List.Perm.swap x y ys)
    · simp only [if_true]
      exact List.Perm.refl _

theorem pySorted_perm (l : List Str) : (pySorted l).Perm l := by
  induction l with
  | nil => exact List.Perm.refl _
  | cons x xs ih => exact (pySortedInsert_perm x (pySorted xs)).trans (ih.cons x)

theorem foldl_insert_gimp (env : AttrEnv) (procs : Str → ProcInfo)
    (l : List Str) (b : List PyAst.PyStmt) :
    l.foldl (fun b nm => b ++ [insertGimpPdbProcedureNode env procs nm]) b =
      b ++ l.map (insertGimpPdbProcedureNode env procs) := by
  induction l generalizing b with
  | nil => simp
  | cons x xs ih => simp [List.foldl_cons, ih]

theorem foldl_insert_gegl (env : AttrEnv) (procs : Str → ProcInfo)
    (l : List Str) (b : List PyAst.PyStmt) :
    l.foldl (fun b nm => b ++ [insertGeglProcedureNode env procs nm]) b =
      b ++ l.map (insertGeglProcedureNode env procs) := by
  induction l generalizing b with
  | nil => simp
  | cons x xs ih => simp [List.foldl_cons, ih]

theorem lookup_filter_ne (p q : FsPath) (h : q ≠ p)
    (files : List (FsPath × Str)) :
    (files.filter (fun kv => !(kv.1 == p))).lookup q = files.lookup q := by
  induction files with
  | nil => rfl
  | cons kv fsl ih =>
    obtain ⟨k, v⟩ := kv
    simp only [List.filter_cons]
    cases hk : ((k, v).1 == p)
    · simp only [Bool.not_false, if_true]
      cases hq : (q == k) <;> simp only [List.lookup, hq]
      exact ih
    · have hkp : k = p := eq_of_beq hk
      have hq : (q == k) = false := by
        rw [hkp]; exact beq_eq_false_iff_ne.mpr h
      simp only [Bool.not_true, Bool.false_eq_true, if_false, List.lookup, hq]
      exact ih

theorem lookup_setFile_ne (files : List (FsPath × Str)) (p q : FsPath)
    (c : Str) (h : q ≠ p) : (setFile files p c).lookup q = files.lookup q := by
  have hqp : (q == p) = false := beq_eq_false_iff_ne.mpr h
  simp only [setFile, List.lookup, hqp]
  exact lookup_filter_ne p q h files

theorem lookup_setFile_self (files : List (FsPath × Str)) (p : FsPath)
    (c : Str) : (setFile files p c).lookup p = some c := by
  simp [setFile, List.lookup]

theorem writeStubFile_lookup_ne (fs : FileSystem) (d : FsPath)
    (root : List PyAst.PyStmt) (p : FsPath)
    (hp : p ≠ d ++ ["pypdb.pyi".data]) :
    (writeStubFile fs d root).files.lookup p = fs.files.lookup p :=
  lookup_setFile_ne fs.files _ p _ hp

theorem writeStubFile_lookup_self (fs : FileSystem) (d : FsPath)
    (root : List PyAst.PyStmt) :
    (writeStubFile fs d root).files.lookup (d ++ ["pypdb.pyi".data]) =
      some (unparseModule root) :=
  lookup_setFile_self fs.files _ _

theorem writeStubFile_dirs (fs : FileSystem) (d : FsPath)
    (root : List PyAst.PyStmt) :
    (writeStubFile fs d root).dirs =
      if d ∈ fs.dirs then fs.dirs else d :: fs.dirs := rfl

theorem append_singleton_ne (l1 l2 : List Str) (a b : Str) (h : a ≠ b) :
    l1 ++ [a] ≠ l2 ++ [b] := by
  intro he
  have h2 := congrArg List.getLast? he
  simp only [List.getLast?_concat] at h2
  exact h (Option.some.inj h2)

end StubGen

namespace StubGen

open PyStr PyAst

theorem isPypdbClassNode_stripStmt (s : PyStmt) :
    isPypdbClassNode (stripStmt s) = isPypdbClassNode s := by
  cases s
  case funcDef nm args defaults decos body returns =>
    by_cases h : nm = "__init__".data
    · simp [stripStmt, h, isPypdbClassNode]
    · simp [stripStmt, h, isPypdbClassNode]
  all_goals rfl

theorem getPypdbClassNode_stripStmts (m : List PyStmt) :
    getPypdbClassNode (stripStmts m) = (getPypdbClassNode m).map stripStmt := by
  induction m with
  | nil => rfl
  | cons s rest ih =>
    show List.find? isPypdbClassNode (stripStmt s :: stripStmts rest) =
      (List.find? isPypdbClassNode (s :: rest)).map stripStmt
    cases h : isPypdbClassNode s <;>
      simp [getPypdbClassNode, List.find?_cons, isPypdbClassNode_stripStmt,
        h, ih]
    exact ih

theorem getPypdbClassNode_insertIdx (l : List PyStmt) (i : Nat) (a : PyStmt)
    (h : isPypdbClassNode a = false) :
    getPypdbClassNode (l.insertIdx i a) = getPypdbClassNode l := by
  induction l generalizing i with
  | nil =>
    cases i with
    | zero =>
      show List.find? isPypdbClassNode [a] = List.find? isPypdbClassNode []
      simp [getPypdbClassNode, List.find?_cons, h]
    | succ n => rfl
  | cons s rest ih =>
    cases i with
    | zero =>
      show List.find? isPypdbClassNode (a :: s :: rest) = _
      simp [getPypdbClassNode, List.find?_cons, h]
    | succ n =>
      show List.find? isPypdbClassNode (s :: rest.insertIdx n a) =
        List.find? isPypdbClassNode (s :: rest)
      cases hs : isPypdbClassNode s <;>
        simp [getPypdbClassNode, List.find?_cons, hs]
      exact ih n

theorem getPypdbClassNode_addImports (m : List PyStmt) :
    getPypdbClassNode (addImports m) = getPypdbClassNode m := by
  rw [show addImports m =
      (((m.insertIdx (lastConsecutiveImportIndex m)
          (PyStmt.importFromS "gi.repository".data ["Gio".data])).insertIdx
        (lastConsecutiveImportIndex m)
          (PyStmt.importFromS "gi.repository".data ["GLib".data])).insertIdx
        (lastConsecutiveImportIndex m)
          (PyStmt.importFromS "typing".data ["Any".data])) from rfl]
  rw [getPypdbClassNode_insertIdx _ _
      (PyStmt.importFromS "typing".data ["Any".data]) rfl,
    getPypdbClassNode_insertIdx _ _
      (PyStmt.importFromS "gi.repository".data ["GLib".data]) rfl,
    getPypdbClassNode_insertIdx _ _
      (PyStmt.importFromS "gi.repository".data ["Gio".data]) rfl]

theorem getPypdbClassNode_append (pre rest body : List PyStmt)
    (hpre : ∀ s ∈ pre, isPypdbClassNode s = false) :
    getPypdbClassNode (pre ++ PyStmt.classDef "_PyPDB".data body :: rest) =
      some (PyStmt.classDef "_PyPDB".data body) := by
  induction pre with
  | nil =>
    show List.find? isPypdbClassNode
      (PyStmt.classDef "_PyPDB".data body :: rest) = _
    simp [List.find?_cons, isPypdbClassNode]
  | cons s pre ih =>
    have hs := hpre s (List.mem_cons_self s pre)
    show List.find? isPypdbClassNode
      (s :: (pre ++ PyStmt.classDef "_PyPDB".data body :: rest)) = _
    simp only [List.find?_cons, hs]
    exact ih fun t ht => hpre t (List.mem_cons_of_mem s ht)

theorem updatePypdbClass_append (rest body : List PyStmt)
    (f : List PyStmt → List PyStmt) (pre : List PyStmt)
    (hpre : ∀ s ∈ pre, isPypdbClassNode s = false) :
    updatePypdbClass (pre ++ PyStmt.classDef "_PyPDB".data body :: rest) f =
      pre ++ PyStmt.classDef "_PyPDB".data (f body) :: rest := by
  induction pre with
  | nil => simp [updatePypdbClass]
  | cons s pre ih =>
    have hs := hpre s (List.mem_cons_self s pre)
    have ih2 := ih fun t ht => hpre t (List.mem_cons_of_mem s ht)
    cases s
    case classDef nm b =>
      have hnm : ¬ nm = "_PyPDB".data := by
        simpa [isPypdbClassNode] using hs
      simp [updatePypdbClass, hnm, ih2]
    all_goals simp [updatePypdbClass, ih2]

end StubGen

namespace StubGen

open PyStr PyAst

theorem appendStubs_append (env : StubGenEnv) (pre rest body : List PyStmt)
    (hpre : ∀ s ∈ pre, isPypdbClassNode s = false) :
    appendStubs env (pre ++ PyStmt.classDef "_PyPDB".data body :: rest) =
      pre ++ PyStmt.classDef "_PyPDB".data
        (body ++
          (pySorted env.pdbProcNames).map
            (insertGimpPdbProcedureNode env.attrs env.pdbProcs) ++
          (pySorted env.geglOpNames).map
            (insertGeglProcedureNode env.attrs env.geglProcs)) :: rest := by
  unfold appendStubs
  rw [updatePypdbClass_append _ _ _ pre hpre]
  rw [foldl_insert_gimp, foldl_insert_gegl]

end StubGen

/-- **C1**: on a run of stub generation whose module file is present and
whose stripped, import-extended tree has a unique top-level `_PyPDB`
class, the generated tree's `_PyPDB` class body is its stripped body
followed by one stub per PDB procedure name in sorted order, then one
stub per GEGL operation name in sorted order (the sorted lists being
permutations of the introspected name lists), and the stub file's
content is `ast.unparse` of the modified tree. -/
theorem claim_C1_sorted_stub_insertion
    (env : StubGen.StubGenEnv) (fs : StubGen.FileSystem)
    (outputDirpath : StubGen.FsPath) (src : PyStr.Str)
    (pre body rest : List PyAst.PyStmt)
    (hsrc : fs.files.lookup (StubGen.pypdbModulePath env) = some src)
    (hstrip : PyAst.removeImplementationOfFunctions
        (StubGen.addImports (env.parseModule src)) =
      Except.ok (pre ++ PyAst.PyStmt.classDef "_PyPDB".data body :: rest))
    (hpre : ∀ s ∈ pre, StubGen.isPypdbClassNode s = false) :
    (PyStr.pySorted env.pdbProcNames).Perm env.pdbProcNames ∧
    (PyStr.pySorted env.geglOpNames).Perm env.geglOpNames ∧
    StubGen.generate_pdb_stubs env fs outputDirpath =
      Except.ok (StubGen.writeStubFile fs outputDirpath
        (pre ++ PyAst.PyStmt.classDef "_PyPDB".data
          (body ++
            (PyStr.pySorted env.pdbProcNames).map
              (StubGen.insertGimpPdbProcedureNode env.attrs env.pdbProcs) ++
            (PyStr.pySorted env.geglOpNames).map
              (StubGen.insertGeglProcedureNode env.attrs env.geglProcs)) ::
          rest)) ∧
    (StubGen.writeStubFile fs outputDirpath
        (pre ++ PyAst.PyStmt.classDef "_PyPDB".data
          (body ++
            (PyStr.pySorted env.pdbProcNames).map
              (StubGen.insertGimpPdbProcedureNode env.attrs env.pdbProcs) ++
            (PyStr.pySorted env.geglOpNames).map
              (StubGen.insertGeglProcedureNode env.attrs env.geglProcs)) ::
          rest)).files.lookup (outputDirpath ++ ["pypdb.pyi".data]) =
      some (StubGen.unparseModule
        (pre ++ PyAst.PyStmt.classDef "_PyPDB".data
          (body ++
            (PyStr.pySorted env.pdbProcNames).map
              (StubGen.insertGimpPdbProcedureNode env.attrs env.pdbProcs) ++
            (PyStr.pySorted env.geglOpNames).map
              (StubGen.insertGeglProcedureNode env.attrs env.geglProcs)) ::
          rest)) := by
  refine ⟨StubGen.pySorted_perm _, StubGen.pySorted_perm _, ?_,
    StubGen.writeStubFile_lookup_self _ _ _⟩
  have hclass := StubGen.getPypdbClassNode_append pre rest body hpre
  simp only [StubGen.generate_pdb_stubs, hsrc, hstrip, hclass,
    StubGen.appendStubs_append env pre rest body hpre]

namespace StubGen

/-- A procedure with no arguments, return values or documentation, used
for concrete runs of the generator. -/
def emptyProcInfo : ProcInfo := ⟨[], [], [], [], [], [], []⟩

/-- A concrete generator environment: the wrapper module holds one
top-level `_PyPDB` class whose body is a single `pass`, and the PDB
exposes one procedure. -/
def wEnv : StubGenEnv :=
  ⟨⟨[], []⟩, ["wrappers".data],
   fun _ => [PyAst.PyStmt.classDef "_PyPDB".data [PyAst.PyStmt.passStmt]],
   fun _ => emptyProcInfo, fun _ => emptyProcInfo,
   ["gimp-image-new".data], []⟩

/-- A file system holding only the wrapper module (with empty content,
standing for the source text the parse oracle consumes). -/
def wFs : FileSystem := ⟨[], [(["wrappers".data, "pypdb.py".data], [])]⟩

def wOut : FsPath := ["out".data]

/-- The tree `claim_C1_sorted_stub_insertion` predicts for a run on
`wEnv`/`wFs`. -/
def wTree : List PyAst.PyStmt :=
  newImportNodes ++
    PyAst.PyStmt.classDef "_PyPDB".data
      ([PyAst.PyStmt.passStmt] ++
        (PyStr.pySorted wEnv.pdbProcNames).map
          (insertGimpPdbProcedureNode wEnv.attrs wEnv.pdbProcs) ++
        (PyStr.pySorted wEnv.geglOpNames).map
          (insertGeglProcedureNode wEnv.attrs wEnv.geglProcs)) :: []

end StubGen

/-- Witness for C1 on the concrete environment `wEnv`: a module of one
`_PyPDB` class and one PDB procedure. -/
theorem claim_C1_witness :
    (PyStr.pySorted StubGen.wEnv.pdbProcNames).Perm
      StubGen.wEnv.pdbProcNames ∧
    (PyStr.pySorted StubGen.wEnv.geglOpNames).Perm
      StubGen.wEnv.geglOpNames ∧
    StubGen.generate_pdb_stubs StubGen.wEnv StubGen.wFs StubGen.wOut =
      Except.ok (StubGen.writeStubFile StubGen.wFs StubGen.wOut
        StubGen.wTree) ∧
    (StubGen.writeStubFile StubGen.wFs StubGen.wOut
        StubGen.wTree).files.lookup
      (StubGen.wOut ++ ["pypdb.pyi".data]) =
      some (StubGen.unparseModule StubGen.wTree) :=
  claim_C1_sorted_stub_insertion StubGen.wEnv StubGen.wFs StubGen.wOut []
    StubGen.newImportNodes [PyAst.PyStmt.passStmt] [] rfl rfl
    (by
      intro s hs
      simp only [StubGen.newImportNodes, List.mem_cons,
        List.not_mem_nil, or_false] at hs
      rcases hs with rfl | rfl | rfl <;> rfl)

namespace StubGen

/-- A wrapper module with no top-level `_PyPDB` class whose only class
has an `__init__` assigning to a bare local name (a target without a
`value` field). -/
def c8Module : List PyAst.PyStmt :=
  [PyAst.PyStmt.classDef "PdbWrapper".data
    [PyAst.PyStmt.funcDef "__init__".data [⟨"self".data, none⟩] [] []
      [PyAst.PyStmt.assign [PyAst.PyExpr.nameE "local_var".data]
        (PyAst.PyExpr.constE (PyAst.PyConst.intC 1))] none]]

def c8Env : StubGenEnv :=
  ⟨⟨[], []⟩, ["wrappers".data], fun _ => c8Module,
   fun _ => emptyProcInfo, fun _ => emptyProcInfo, [], []⟩

end StubGen

/-- **C8** counterexample: the wrapper module file exists but the parsed
module has no top-level `_PyPDB` class — the claim's second RuntimeError
case — yet the run ends in the stripping pass's `AttributeError`, not in
a RuntimeError, because `_remove_implementation_of_functions` runs
before `_get_pypdb_class_node` and raises on the bare-name assignment in
`__init__`. -/
theorem claim_C8_counterexample :
    StubGen.generate_pdb_stubs StubGen.c8Env StubGen.wFs ["out".data] =
      Except.error StubGen.StubGenError.attributeErrorInStrip ∧
    StubGen.getPypdbClassNode (StubGen.c8Env.parseModule []) = none ∧
    StubGen.wFs.files.lookup (StubGen.pypdbModulePath StubGen.c8Env) =
      some [] :=
  ⟨rfl, rfl, rfl⟩

/-- **C8** amended: the generator ends in a RuntimeError exactly when the
wrapper module file is missing, or when it is present, the stripping
pass raises no AttributeError, and the parsed module has no top-level
class named `_PyPDB`; an error of any kind produces no stub file (the
run returns no file system). -/
theorem claim_C8_amended_runtime_error (env : StubGen.StubGenEnv)
    (fs : StubGen.FileSystem) (outputDirpath : StubGen.FsPath) :
    (StubGen.generate_pdb_stubs env fs outputDirpath =
        Except.error StubGen.StubGenError.runtimeErrorModuleMissing ∨
      StubGen.generate_pdb_stubs env fs outputDirpath =
        Except.error StubGen.StubGenError.runtimeErrorPypdbClassMissing) ↔
    (fs.files.lookup (StubGen.pypdbModulePath env) = none ∨
      ∃ src, fs.files.lookup (StubGen.pypdbModulePath env) = some src ∧
        PyAst.stmtsWalkError (StubGen.addImports (env.parseModule src)) =
          false ∧
        StubGen.getPypdbClassNode (env.parseModule src) = none) := by
  cases hl : fs.files.lookup (StubGen.pypdbModulePath env) with
  | none =>
    have hg : StubGen.generate_pdb_stubs env fs outputDirpath =
        Except.error StubGen.StubGenError.runtimeErrorModuleMissing := by
      simp only [StubGen.generate_pdb_stubs, hl]
    constructor
    · intro _
      exact Or.inl rfl
    · intro _
      exact Or.inl hg
  | some src =>
    cases hW : PyAst.stmtsWalkError (StubGen.addImports (env.parseModule src))
    · have hok : PyAst.removeImplementationOfFunctions
          (StubGen.addImports (env.parseModule src)) =
          Except.ok (PyAst.stripStmts
            (StubGen.addImports (env.parseModule src))) := by
        simp [PyAst.removeImplementationOfFunctions, hW]
      have hclass : StubGen.getPypdbClassNode
          (PyAst.stripStmts (StubGen.addImports (env.parseModule src))) =
          (StubGen.getPypdbClassNode (env.parseModule src)).map
            PyAst.stripStmt := by
        rw [StubGen.getPypdbClassNode_stripStmts,
          StubGen.getPypdbClassNode_addImports]
      cases hC : StubGen.getPypdbClassNode (env.parseModule src) with
      | none =>
        have hg : StubGen.generate_pdb_stubs env fs outputDirpath =
            Except.error StubGen.StubGenError.runtimeErrorPypdbClassMissing := by
          simp only [StubGen.generate_pdb_stubs, hl, hok, hclass, hC,
            Option.map_none']
        constructor
        · intro _
          exact Or.inr ⟨src, rfl, hW, hC⟩
        · intro _
          exact Or.inr hg
      | some cls =>
        have hg : StubGen.generate_pdb_stubs env fs outputDirpath =
            Except.ok (StubGen.writeStubFile fs outputDirpath
              (StubGen.appendStubs env (PyAst.stripStmts
                (StubGen.addImports (env.parseModule src))))) := by
          simp only [StubGen.generate_pdb_stubs, hl, hok, hclass, hC,
            Option.map_some']
        rw [hg]
        constructor
        · rintro (hc | hc) <;> exact Except.noConfusion hc
        · rintro (hc | ⟨src2, hsome, hW2, hC2⟩)
          · exact Option.noConfusion hc
          · injection hsome with he
            subst he
            rw [hC] at hC2
            exact Option.noConfusion hC2
    · have hg : StubGen.generate_pdb_stubs env fs outputDirpath =
          Except.error StubGen.StubGenError.attributeErrorInStrip := by
        have herr : PyAst.removeImplementationOfFunctions
            (StubGen.addImports (env.parseModule src)) =
            Except.error () := by
          simp [PyAst.removeImplementationOfFunctions, hW]
        simp only [StubGen.generate_pdb_stubs, hl, herr]
      rw [hg]
      constructor
      · rintro (hc | hc) <;>
          simp only [Except.error.injEq] at hc <;>
          exact StubGen.StubGenError.noConfusion hc
      · rintro (hc | ⟨src2, hsome, hW2, hC2⟩)
        · exact Option.noConfusion hc
        · injection hsome with he
          subst he
          rw [hW] at hW2
          exact Bool.noConfusion hW2

/-- **C10**: a successful run of stub generation changes no file other
than `<output>/pypdb.pyi` (the input wrapper module, whose path ends in
`pypdb.py`, is in particular unchanged), writes the serialized tree to
that single stub file, and its only directory effect is creating the
output directory when absent. -/
theorem claim_C10_frame_effects (env : StubGen.StubGenEnv)
    (fs : StubGen.FileSystem) (outputDirpath : StubGen.FsPath)
    (fs2 : StubGen.FileSystem)
    (h : StubGen.generate_pdb_stubs env fs outputDirpath = Except.ok fs2) :
    (∀ p, p ≠ outputDirpath ++ ["pypdb.pyi".data] →
      fs2.files.lookup p = fs.files.lookup p) ∧
    fs2.dirs = (if outputDirpath ∈ fs.dirs then fs.dirs
      else outputDirpath :: fs.dirs) ∧
    fs2.files.lookup (StubGen.pypdbModulePath env) =
      fs.files.lookup (StubGen.pypdbModulePath env) ∧
    (∃ root, fs2.files.lookup (outputDirpath ++ ["pypdb.pyi".data]) =
      some (StubGen.unparseModule root)) := by
  unfold StubGen.generate_pdb_stubs at h
  split at h
  · exact Except.noConfusion h
  · split at h
    · exact Except.noConfusion h
    · split at h
      · exact Except.noConfusion h
      · injection h with h2
        subst h2
        refine ⟨?_, StubGen.writeStubFile_dirs fs outputDirpath _, ?_, ?_⟩
        · intro p hp
          exact StubGen.writeStubFile_lookup_ne fs outputDirpath _ p hp
        · exact StubGen.writeStubFile_lookup_ne fs outputDirpath _ _
            (StubGen.append_singleton_ne env.wrappersDir outputDirpath
              "pypdb.py".data "pypdb.pyi".data (by decide))
        · exact ⟨_, StubGen.writeStubFile_lookup_self fs outputDirpath _⟩

namespace StubGen

/-- The file system produced by the successful run of the generator on
`wEnv`/`wFs`. -/
def wResult : FileSystem :=
  match generate_pdb_stubs wEnv wFs wOut with
  | .ok fsr => fsr
  | .error _ => wFs

end StubGen

/-- Witness for C10 on the concrete run over `wEnv`/`wFs`: the output
directory is created and the input wrapper module's entry is untouched. -/
theorem claim_C10_witness :
    StubGen.wResult.dirs = (if StubGen.wOut ∈ StubGen.wFs.dirs
      then StubGen.wFs.dirs else StubGen.wOut :: StubGen.wFs.dirs) ∧
    StubGen.wResult.files.lookup (StubGen.pypdbModulePath StubGen.wEnv) =
      StubGen.wFs.files.lookup (StubGen.pypdbModulePath StubGen.wEnv) :=
  ⟨(claim_C10_frame_effects StubGen.wEnv StubGen.wFs StubGen.wOut
      StubGen.wResult rfl).2.1,
   (claim_C10_frame_effects StubGen.wEnv StubGen.wFs StubGen.wOut
      StubGen.wResult rfl).2.2.1⟩
